import Mathlib

/-!
# Verification of `internal/taskstore/taskstore.go`

A shallow embedding of the in-memory task store and the properties proved
about it.

Modelling conventions
* Go's `int` is a 64-bit two's-complement integer.  Values are carried as
  `Int`; the only arithmetic the package performs on an `int` is `nextId++`,
  which is embedded with explicit wrap-around (`wrapInt`).
* `map[int]Task` is a finite map with pairwise distinct keys (`AList`).  The
  order in which `for ... range` visits a map is not fixed by the language, so
  every scanning method takes the visiting sequence as an argument `order`,
  and the theorems hold for every arrangement of the entries of the map.
* `[]string` and `[]Task` are lists; a nil slice and an empty slice are both
  `[]`.  Where sharing of backing arrays matters, namespace `Mem` carries a
  `[]string` as a reference into an explicit heap.
* `error` is `Option String`: `none` is `nil`, `some msg` an error with that
  message.
* Every method is one atomic step on the state.  The definitions on the
  store leave the mutex out; namespace `Sync` embeds the methods on the
  receiver, mutex included, for one caller at a time.
-/

namespace taskstore

/-! ## Machine integers -/

/-- Width in bits of Go's `int` on a 64-bit target. -/
def intBits : Nat := 64

/-- Largest value of Go's `int`. -/
def maxInt : Int := 2 ^ (intBits - 1) - 1

/-- Smallest value of Go's `int`. -/
def minInt : Int := -(2 ^ (intBits - 1))

/-- Reduction of a mathematical integer to the `int` it is stored as
(two's complement wrap-around). -/
def wrapInt (x : Int) : Int :=
  (x + 2 ^ (intBits - 1)) % 2 ^ intBits - 2 ^ (intBits - 1)

/-! ## Standard-library types -/

/-- Modelled from the spec: `time.Time` and its method `Date` belong to the Go
standard library, not to this repository.  A timestamp is represented by its
civil date and time of day in its own time zone, which is what `Date` reads. -/
structure Time where
  year : Int
  month : Int
  day : Int
  hour : Nat
  minute : Nat
  second : Nat
  nanosecond : Nat
  zoneOffset : Int
deriving DecidableEq, Repr

/-- Modelled from the spec: `Time.Date()` returns the year, month and day in
which the timestamp occurs, ignoring the time of day. -/
def Time.Date (t : Time) : Int × Int × Int := (t.year, t.month, t.day)

/-- The zero `time.Time`: January 1, year 1, 00:00:00 UTC. -/
def Time.zero : Time := ⟨1, 1, 1, 0, 0, 0, 0, 0⟩

/-- Builtin `make([]string, n)`: `n` zero strings. -/
def make (n : Nat) : List String := List.replicate n ""

/-- Builtin `copy(dst, src)`: overwrites the first `min (len dst) (len src)`
elements of `dst` by those of `src`; the value is `dst` afterwards. -/
def copy (dst src : List String) : List String :=
  src.take dst.length ++ dst.drop src.length

/-! ## Data model -/

/-- The record `Task`. -/
structure Task where
  Id : Int
  Text : String
  Tags : List String
  Due : Time
deriving DecidableEq, Repr

/-- The zero value `Task{}`. -/
def Task.zero : Task := ⟨0, "", [], Time.zero⟩

/-- The type `map[int]Task`. -/
abbrev TaskMap : Type := AList (fun _ : Int => Task)

/-- The state of a `TaskStore` (the embedded mutex left out). -/
structure TaskStore where
  tasks : TaskMap
  nextId : Int

/-- The message of `fmt.Errorf("task with id=%d not found", id)`. -/
def notFound (id : Int) : String :=
  "task with id=" ++ toString id ++ " not found"

/-! ## Operations -/

/-- Constructor `New`. -/
def New : TaskStore :=
  { tasks := ∅, nextId := 0 }

/-- Method `CreateTask`: the store afterwards and the returned id. -/
def CreateTask (ts : TaskStore) (text : String) (tags : List String) (due : Time) :
    TaskStore × Int :=
  let task : Task := { Id := ts.nextId, Text := text, Tags := [], Due := due }
  let task : Task := { task with Tags := make tags.length }
  let task : Task := { task with Tags := copy task.Tags tags }
  ({ tasks := ts.tasks.insert ts.nextId task, nextId := wrapInt (ts.nextId + 1) }, task.Id)

/-- Method `GetTask`: the returned pair `(Task, error)`. -/
def GetTask (ts : TaskStore) (id : Int) : Task × Option String :=
  match ts.tasks.lookup id with
  | some t => (t, none)
  | none => (Task.zero, some (notFound id))

/-- Method `DeleteTask`: the store afterwards and the returned error. -/
def DeleteTask (ts : TaskStore) (id : Int) : TaskStore × Option String :=
  match ts.tasks.lookup id with
  | none => (ts, some (notFound id))
  | some _ => ({ ts with tasks := ts.tasks.erase id }, none)

/-- Method `DeleteAllTasks`: the store afterwards and the returned error. -/
def DeleteAllTasks (ts : TaskStore) : TaskStore × Option String :=
  ({ ts with tasks := ∅ }, none)

/-- The visiting sequences `for ... range m` may take over a map `m`: every
arrangement of its entries. -/
def RangeOrder (m : TaskMap) (order : List (Sigma fun _ : Int => Task)) : Prop :=
  order.Perm m.entries

instance instDecidableRangeOrder (m : TaskMap) (order : List (Sigma fun _ : Int => Task)) :
    Decidable (RangeOrder m order) :=
  inferInstanceAs (Decidable (order.Perm m.entries))

/-- Method `GetAllTasks`, the map being visited in the sequence `order`. -/
def GetAllTasks (_ts : TaskStore) (order : List (Sigma fun _ : Int => Task)) : List Task :=
  order.foldl (fun allTasks e => allTasks ++ [e.2]) []

/-- The inner loop of `GetTaskByTag` over the remaining tags of `task`:
on the first tag equal to `tag` the task is appended and the loop is left
(`continue taskloop`). -/
def tagLoop (tag : String) (task : Task) (tasks : List Task) : List String → List Task
  | [] => tasks
  | tasktag :: rest =>
    if tasktag = tag then tasks ++ [task] else tagLoop tag task tasks rest

/-- Method `GetTaskByTag`, the map being visited in the sequence `order`. -/
def GetTaskByTag (_ts : TaskStore) (order : List (Sigma fun _ : Int => Task))
    (tag : String) : List Task :=
  order.foldl (fun tasks e => tagLoop tag e.2 tasks e.2.Tags) []

/-- Method `GetTaskByDueDate`, the map being visited in the sequence `order`. -/
def GetTaskByDueDate (_ts : TaskStore) (order : List (Sigma fun _ : Int => Task))
    (year month day : Int) : List Task :=
  order.foldl
    (fun tasks e =>
      match e.2.Due.Date with
      | (y, m, d) => if y = year ∧ m = month ∧ d = day then tasks ++ [e.2] else tasks)
    []

/-! ## Sequences of operations -/

/-- One call of a public method. -/
inductive Op where
  | createTask (text : String) (tags : List String) (due : Time)
  | getTask (id : Int)
  | deleteTask (id : Int)
  | deleteAllTasks
  | getAllTasks
  | getTaskByTag (tag : String)
  | getTaskByDueDate (year month day : Int)

/-- The store after one call. The four read methods assign to no field. -/
def step (ts : TaskStore) : Op → TaskStore
  | .createTask text tags due => (CreateTask ts text tags due).1
  | .getTask _ => ts
  | .deleteTask id => (DeleteTask ts id).1
  | .deleteAllTasks => (DeleteAllTasks ts).1
  | .getAllTasks => ts
  | .getTaskByTag _ => ts
  | .getTaskByDueDate _ _ _ => ts

/-- The calls of the four read methods `GetTask`, `GetAllTasks`, `GetTaskByTag`
and `GetTaskByDueDate`. -/
def isRead : Op → Bool
  | .getTask _ => true
  | .getAllTasks => true
  | .getTaskByTag _ => true
  | .getTaskByDueDate _ _ _ => true
  | _ => false

/-- The store after a sequence of calls, first call first. -/
def exec (ts : TaskStore) (ops : List Op) : TaskStore :=
  ops.foldl step ts

/-- The ids returned by the `CreateTask` calls of a sequence, in call order. -/
def createdIds : TaskStore → List Op → List Int
  | _, [] => []
  | ts, .createTask text tags due :: ops =>
    (CreateTask ts text tags due).2 :: createdIds (CreateTask ts text tags due).1 ops
  | ts, op :: ops => createdIds (step ts op) ops

/-- The number of `CreateTask` calls in a sequence. -/
def numCreates : List Op → Nat
  | [] => 0
  | .createTask _ _ _ :: ops => numCreates ops + 1
  | _ :: ops => numCreates ops

/-- A store is reachable when some sequence of calls leads to it from `New()`. -/
def Reachable (ts : TaskStore) : Prop :=
  ∃ ops : List Op, exec New ops = ts

/-! ## Slices as references

The definitions above carry a `[]string` as the list of its elements.  Whether
two slices share their elements is a matter of the backing arrays, which this
section makes explicit for the methods that hand tags in and out of the
store. -/

namespace Mem

/-- The heap of backing arrays of `[]string` values; the address of an array
is its position, and arrays are never freed. -/
abbrev Heap : Type := List (List String)

/-- The backing array at an address. -/
def Heap.array (h : Heap) (a : Nat) : List String := (h[a]?).getD []

/-- A value of type `[]string`: the window of `len` elements from offset `off`
on the backing array at address `arr`.  The nil slice has `len = 0`. -/
structure Slice where
  arr : Nat
  off : Nat
  len : Nat
deriving DecidableEq, Repr

/-- The elements of a slice. -/
def Slice.read (h : Heap) (s : Slice) : List String :=
  ((h.array s.arr).drop s.off).take s.len

/-- The assignment `s[i] = v`: it writes the backing array; an index out of
range panics (`none`). -/
def Slice.assign (h : Heap) (s : Slice) (i : Nat) (v : String) : Option Heap :=
  if i < s.len then some (h.set s.arr ((h.array s.arr).set (s.off + i) v)) else none

/-- Builtin `make([]string, n)`: a new backing array of `n` zero strings and
the slice of all of it. -/
def make (h : Heap) (n : Nat) : Heap × Slice :=
  (h ++ [List.replicate n ""], { arr := h.length, off := 0, len := n })

/-- Builtin `copy(dst, src)`: writes the first `min (len dst) (len src)`
elements of `src` over those of `dst` in the backing array of `dst`. -/
def copy (h : Heap) (dst src : Slice) : Heap :=
  let n := min dst.len src.len
  let a := h.array dst.arr
  h.set dst.arr (a.take dst.off ++ (src.read h).take n ++ a.drop (dst.off + n))

/-- The record `Task`, its Tags being a slice value. -/
structure Task where
  Id : Int
  Text : String
  Tags : Slice
  Due : Time
deriving DecidableEq, Repr

/-- The zero value `Task{}`. -/
def Task.zero : Task := ⟨0, "", ⟨0, 0, 0⟩, Time.zero⟩

/-- The task a record stands for, its tags read from the heap. -/
def Task.value (h : Heap) (t : Task) : taskstore.Task :=
  { Id := t.Id, Text := t.Text, Tags := t.Tags.read h, Due := t.Due }

/-- The state of a `TaskStore`. -/
structure TaskStore where
  tasks : AList (fun _ : Int => Task)
  nextId : Int

/-- Constructor `New`. -/
def New : TaskStore :=
  { tasks := ∅, nextId := 0 }

/-- Method `CreateTask`: the heap and the store afterwards, and the returned
id. -/
def CreateTask (h : Heap) (ts : TaskStore) (text : String) (tags : Slice) (due : Time) :
    Heap × TaskStore × Int :=
  let task : Task := { Id := ts.nextId, Text := text, Tags := ⟨0, 0, 0⟩, Due := due }
  let (h, s) := make h tags.len
  let task : Task := { task with Tags := s }
  let h := copy h task.Tags tags
  (h, { tasks := ts.tasks.insert ts.nextId task, nextId := wrapInt (ts.nextId + 1) }, task.Id)

/-- Method `GetTask`: the returned pair `(Task, error)`; the record is
returned by value, its Tags being the stored slice value. -/
def GetTask (ts : TaskStore) (id : Int) : Task × Option String :=
  match ts.tasks.lookup id with
  | some t => (t, none)
  | none => (Task.zero, some (notFound id))

/-- Method `GetAllTasks`, the map being visited in the sequence `order`: the
records are appended by value to a new sequence. -/
def GetAllTasks (_ts : TaskStore) (order : List (Sigma fun _ : Int => Task)) : List Task :=
  order.foldl (fun allTasks e => allTasks ++ [e.2]) []

end Mem

/-! ## Methods on the receiver

The receiver `*TaskStore` of a method is the store together with its embedded
`sync.Mutex`.  This section embeds every method statement by statement as a
step on the receiver: `ts.Lock()`, the body, and the deferred `ts.Unlock()` on
each return path.  A call that never returns, `Lock` on a held mutex with no
other caller to release it, is `none`. -/

namespace Sync

/-- The receiver: whether the mutex is held, and the fields of the store. -/
structure Receiver where
  locked : Bool
  store : TaskStore

/-- `ts.Lock()`: takes the mutex when it is free, and does not return when it
is held. -/
def Lock (r : Receiver) : Option Receiver :=
  if r.locked then none else some { r with locked := true }

/-- `ts.Unlock()`: releases the mutex. -/
def Unlock (r : Receiver) : Receiver :=
  { r with locked := false }

/-- Method `CreateTask` on the receiver: the receiver afterwards and the
returned id. -/
def CreateTask (r : Receiver) (text : String) (tags : List String) (due : Time) :
    Option (Receiver × Int) :=
  match Lock r with
  | none => none
  | some r =>
    let task : Task := { Id := r.store.nextId, Text := text, Tags := [], Due := due }
    let task : Task := { task with Tags := make tags.length }
    let task : Task := { task with Tags := copy task.Tags tags }
    let r : Receiver :=
      { r with store := { r.store with tasks := r.store.tasks.insert r.store.nextId task } }
    let r : Receiver :=
      { r with store := { r.store with nextId := wrapInt (r.store.nextId + 1) } }
    some (Unlock r, task.Id)

/-- Method `GetTask` on the receiver: the receiver afterwards and the returned
pair `(Task, error)`. -/
def GetTask (r : Receiver) (id : Int) : Option (Receiver × (Task × Option String)) :=
  match Lock r with
  | none => none
  | some r =>
    match r.store.tasks.lookup id with
    | some t => some (Unlock r, (t, none))
    | none => some (Unlock r, (Task.zero, some (notFound id)))

/-- Method `DeleteTask` on the receiver: the receiver afterwards and the
returned error. -/
def DeleteTask (r : Receiver) (id : Int) : Option (Receiver × Option String) :=
  match Lock r with
  | none => none
  | some r =>
    match r.store.tasks.lookup id with
    | none => some (Unlock r, some (notFound id))
    | some _ =>
      let r : Receiver := { r with store := { r.store with tasks := r.store.tasks.erase id } }
      some (Unlock r, none)

/-- Method `DeleteAllTasks` on the receiver: the receiver afterwards and the
returned error. -/
def DeleteAllTasks (r : Receiver) : Option (Receiver × Option String) :=
  match Lock r with
  | none => none
  | some r =>
    let r : Receiver := { r with store := { r.store with tasks := ∅ } }
    some (Unlock r, none)

/-- Method `GetAllTasks` on the receiver, the map `ts.tasks` being visited in
the sequence `order`: the receiver afterwards and the returned sequence. -/
def GetAllTasks (r : Receiver) (order : List (Sigma fun _ : Int => Task)) :
    Option (Receiver × List Task) :=
  match Lock r with
  | none => none
  | some r =>
    let allTasks : List Task := []
    let allTasks := order.foldl (fun allTasks e => allTasks ++ [e.2]) allTasks
    some (Unlock r, allTasks)

/-- Method `GetTaskByTag` on the receiver, the map `ts.tasks` being visited in
the sequence `order`: the receiver afterwards and the returned sequence. -/
def GetTaskByTag (r : Receiver) (order : List (Sigma fun _ : Int => Task)) (tag : String) :
    Option (Receiver × List Task) :=
  match Lock r with
  | none => none
  | some r =>
    let tasks : List Task := []
    let tasks := order.foldl (fun tasks e => tagLoop tag e.2 tasks e.2.Tags) tasks
    some (Unlock r, tasks)

/-- Method `GetTaskByDueDate` on the receiver, the map `ts.tasks` being
visited in the sequence `order`: the receiver afterwards and the returned
sequence. -/
def GetTaskByDueDate (r : Receiver) (order : List (Sigma fun _ : Int => Task))
    (year month day : Int) : Option (Receiver × List Task) :=
  match Lock r with
  | none => none
  | some r =>
    let tasks : List Task := []
    let tasks := order.foldl
      (fun tasks e =>
        match e.2.Due.Date with
        | (y, m, d) => if y = year ∧ m = month ∧ d = day then tasks ++ [e.2] else tasks)
      tasks
    some (Unlock r, tasks)

/-- One call on the receiver: the receiver afterwards, the result left out. -/
def call (r : Receiver) (order : List (Sigma fun _ : Int => Task)) : Op → Option Receiver
  | .createTask text tags due => (CreateTask r text tags due).map (fun p => p.1)
  | .getTask id => (GetTask r id).map (fun p => p.1)
  | .deleteTask id => (DeleteTask r id).map (fun p => p.1)
  | .deleteAllTasks => (DeleteAllTasks r).map (fun p => p.1)
  | .getAllTasks => (GetAllTasks r order).map (fun p => p.1)
  | .getTaskByTag tag => (GetTaskByTag r order tag).map (fun p => p.1)
  | .getTaskByDueDate year month day => (GetTaskByDueDate r order year month day).map (fun p => p.1)

end Sync

/-! ## The scenario of the specification -/

/-- The three `CreateTask` calls of the scenario, A, B and C in that order,
due at the given timestamps. -/
def scenarioOps (dueA dueB dueC : Time) : List Op :=
  [Op.createTask "buy milk" ["home"] dueA,
   Op.createTask "file report" ["work", "urgent"] dueB,
   Op.createTask "call mom" ["home"] dueC]

/-- Task A of the scenario as the store holds it. -/
def scenarioA (due : Time) : Task :=
  { Id := 0, Text := "buy milk", Tags := ["home"], Due := due }

/-- Task B of the scenario as the store holds it. -/
def scenarioB (due : Time) : Task :=
  { Id := 1, Text := "file report", Tags := ["work", "urgent"], Due := due }

/-- Task C of the scenario as the store holds it. -/
def scenarioC (due : Time) : Task :=
  { Id := 2, Text := "call mom", Tags := ["home"], Due := due }

/-! ## Basic facts -/

theorem copy_make (tags : List String) : copy (make tags.length) tags = tags := by
  simp [copy, make]

theorem CreateTask_id (ts : TaskStore) (text : String) (tags : List String) (due : Time) :
    (CreateTask ts text tags due).2 = ts.nextId := rfl

theorem CreateTask_nextId (ts : TaskStore) (text : String) (tags : List String) (due : Time) :
    (CreateTask ts text tags due).1.nextId = wrapInt (ts.nextId + 1) := rfl

theorem CreateTask_tasks (ts : TaskStore) (text : String) (tags : List String) (due : Time) :
    (CreateTask ts text tags due).1.tasks
      = ts.tasks.insert ts.nextId { Id := ts.nextId, Text := text, Tags := tags, Due := due } := by
  simp [CreateTask, copy_make]

theorem GetTask_of_lookup {ts : TaskStore} {id : Int} {t : Task}
    (h : ts.tasks.lookup id = some t) : GetTask ts id = (t, none) := by
  simp [GetTask, h]

theorem GetTask_of_not_mem {ts : TaskStore} {id : Int} (h : id ∉ ts.tasks) :
    GetTask ts id = (Task.zero, some (notFound id)) := by
  have h' : ts.tasks.lookup id = none := AList.lookup_eq_none.mpr h
  simp [GetTask, h']

theorem DeleteTask_of_not_mem {ts : TaskStore} {id : Int} (h : id ∉ ts.tasks) :
    DeleteTask ts id = (ts, some (notFound id)) := by
  have h' : ts.tasks.lookup id = none := AList.lookup_eq_none.mpr h
  simp [DeleteTask, h']

theorem DeleteTask_of_mem {ts : TaskStore} {id : Int} (h : id ∈ ts.tasks) :
    DeleteTask ts id = ({ ts with tasks := ts.tasks.erase id }, none) := by
  have h' : (ts.tasks.lookup id).isSome := AList.lookup_isSome.mpr h
  obtain ⟨t, ht⟩ := Option.isSome_iff_exists.mp h'
  simp [DeleteTask, ht]

theorem DeleteTask_nextId (ts : TaskStore) (id : Int) :
    (DeleteTask ts id).1.nextId = ts.nextId := by
  by_cases h : id ∈ ts.tasks
  · rw [DeleteTask_of_mem h]
  · rw [DeleteTask_of_not_mem h]

theorem not_mem_DeleteTask (ts : TaskStore) (id : Int) : id ∉ (DeleteTask ts id).1.tasks := by
  by_cases h : id ∈ ts.tasks
  · rw [DeleteTask_of_mem h]; simp [AList.mem_erase]
  · rw [DeleteTask_of_not_mem h]; exact h

theorem mem_DeleteTask {ts : TaskStore} {id k : Int} (h : k ∈ (DeleteTask ts id).1.tasks) :
    k ∈ ts.tasks := by
  by_cases hm : id ∈ ts.tasks
  · rw [DeleteTask_of_mem hm] at h
    exact (AList.mem_erase.mp h).2
  · rw [DeleteTask_of_not_mem hm] at h; exact h

/-! ### Wrap-around -/

theorem wrapInt_of_range {x : Int} (h1 : minInt ≤ x) (h2 : x ≤ maxInt) : wrapInt x = x := by
  unfold wrapInt
  unfold minInt intBits at h1
  unfold maxInt intBits at h2
  unfold intBits
  norm_num at h1 h2 ⊢
  rw [Int.emod_eq_of_lt (by omega) (by omega)]
  omega

theorem wrapInt_maxInt_succ : wrapInt (maxInt + 1) = minInt := by decide

/-! ### Sequences -/

theorem exec_nil (ts : TaskStore) : exec ts [] = ts := rfl

theorem exec_cons (ts : TaskStore) (op : Op) (ops : List Op) :
    exec ts (op :: ops) = exec (step ts op) ops := rfl

theorem exec_append (ts : TaskStore) (pre post : List Op) :
    exec ts (pre ++ post) = exec (exec ts pre) post := by
  simp [exec, List.foldl_append]

theorem createdIds_cons (ts : TaskStore) (op : Op) (ops : List Op) :
    createdIds ts (op :: ops)
      = (match op with
          | .createTask _ _ _ => [ts.nextId]
          | _ => []) ++ createdIds (step ts op) ops := by
  cases op <;> simp [createdIds, step, CreateTask_id]

theorem createdIds_append (ts : TaskStore) (pre post : List Op) :
    createdIds ts (pre ++ post) = createdIds ts pre ++ createdIds (exec ts pre) post := by
  induction pre generalizing ts with
  | nil => simp [createdIds, exec_nil]
  | cons op pre ih =>
    rw [List.cons_append, createdIds_cons, createdIds_cons, exec_cons, ih, List.append_assoc]

theorem numCreates_append (pre post : List Op) :
    numCreates (pre ++ post) = numCreates pre + numCreates post := by
  induction pre with
  | nil => simp [numCreates]
  | cons op pre ih => cases op <;> simp [numCreates, ih]; omega

theorem step_nextId (ts : TaskStore) (op : Op) :
    (step ts op).nextId
      = (match op with
          | .createTask _ _ _ => wrapInt (ts.nextId + 1)
          | _ => ts.nextId) := by
  cases op <;> simp [step, CreateTask_nextId, DeleteTask_nextId, DeleteAllTasks]

/-- Every key of the store after one call was a key before, or is the id the
call returned. -/
theorem mem_step {ts : TaskStore} {op : Op} {k : Int} (h : k ∈ (step ts op).tasks) :
    k ∈ ts.tasks ∨ k ∈ createdIds ts [op] := by
  cases op with
  | createTask text tags due =>
    simp only [step, CreateTask_tasks, AList.mem_insert] at h
    rcases h with h | h
    · right; simp [createdIds, CreateTask_id, h]
    · left; exact h
  | deleteTask id => left; exact mem_DeleteTask h
  | deleteAllTasks => exact absurd h (AList.not_mem_empty k)
  | getTask _ => left; exact h
  | getAllTasks => left; exact h
  | getTaskByTag _ => left; exact h
  | getTaskByDueDate _ _ _ => left; exact h

/-- Every key of the store after a sequence of calls was a key before, or is
an id one of the calls returned. -/
theorem mem_exec {ts : TaskStore} {ops : List Op} {k : Int} (h : k ∈ (exec ts ops).tasks) :
    k ∈ ts.tasks ∨ k ∈ createdIds ts ops := by
  induction ops generalizing ts with
  | nil => left; exact h
  | cons op ops ih =>
    rw [exec_cons] at h
    have hc : createdIds ts (op :: ops) = createdIds ts [op] ++ createdIds (step ts op) ops := by
      have := createdIds_append ts [op] ops
      simpa [exec] using this
    rw [hc]
    rcases ih h with h1 | h1
    · rcases mem_step h1 with h2 | h2
      · left; exact h2
      · right; exact List.mem_append_left _ h2
    · right; exact List.mem_append_right _ h1

theorem wrapInt_wrapInt_add (a b : Int) : wrapInt (wrapInt a + b) = wrapInt (a + b) := by
  unfold wrapInt
  have e : (a + 2 ^ (intBits - 1)) % 2 ^ intBits - 2 ^ (intBits - 1) + b + 2 ^ (intBits - 1)
      = (a + 2 ^ (intBits - 1)) % 2 ^ intBits + b := by ring
  rw [e, Int.emod_add_emod]
  congr 2
  ring

theorem wrapInt_wrapInt (a : Int) : wrapInt (wrapInt a) = wrapInt a := by
  have := wrapInt_wrapInt_add a 0
  simpa using this

theorem wrapInt_zero : wrapInt 0 = 0 := by decide

theorem wrapInt_natCast {n : Nat} (h : n < 2 ^ 63) : wrapInt (n : Int) = n := by
  apply wrapInt_of_range
  · unfold minInt intBits; norm_num; omega
  · unfold maxInt intBits; norm_num; omega

theorem wrapInt_two_pow : wrapInt (((2 ^ 63 : Nat) : Int)) = minInt := by decide

/-- The counter after a sequence of calls, wrap-around included. -/
theorem exec_nextId_wrap (ts : TaskStore) (ops : List Op) (h : wrapInt ts.nextId = ts.nextId) :
    (exec ts ops).nextId = wrapInt (ts.nextId + numCreates ops) := by
  induction ops generalizing ts with
  | nil => simp [exec_nil, numCreates, h]
  | cons op ops ih =>
    rw [exec_cons, ih (step ts op)]
    · rw [step_nextId]
      cases op <;> simp only [numCreates]
      rw [wrapInt_wrapInt_add]; push_cast; congr 1; ring
    · rw [step_nextId]
      cases op <;> simp only [h, wrapInt_wrapInt]

/-- The ids a sequence of calls returns, wrap-around included. -/
theorem createdIds_wrap (ts : TaskStore) (ops : List Op) (h : wrapInt ts.nextId = ts.nextId) :
    createdIds ts ops
      = (List.range (numCreates ops)).map (fun i : Nat => wrapInt (ts.nextId + i)) := by
  induction ops generalizing ts with
  | nil => simp [createdIds, numCreates]
  | cons op ops ih =>
    have hs : wrapInt (step ts op).nextId = (step ts op).nextId := by
      have := exec_nextId_wrap ts [op] h
      rw [exec_cons, exec_nil] at this
      rw [this, wrapInt_wrapInt]
    rw [createdIds_cons, ih (step ts op) hs, step_nextId]
    cases op <;> simp only [numCreates, List.nil_append, h]
    rw [List.range_succ_eq_map, List.map_cons, List.map_map]
    simp only [Nat.cast_zero, add_zero, h, List.singleton_append, List.cons.injEq, true_and]
    apply List.map_congr_left
    intro i _
    simp only [Function.comp, wrapInt_wrapInt_add]
    push_cast; congr 1; ring

theorem nextId_New : New.nextId = 0 := rfl

theorem createdIds_New (ops : List Op) :
    createdIds New ops = (List.range (numCreates ops)).map (fun i : Nat => wrapInt i) := by
  rw [createdIds_wrap New ops (by rw [nextId_New]; exact wrapInt_zero)]
  simp [nextId_New]

theorem exec_New_nextId (ops : List Op) :
    (exec New ops).nextId = wrapInt (numCreates ops) := by
  rw [exec_nextId_wrap New ops (by rw [nextId_New]; exact wrapInt_zero)]
  simp [nextId_New]

/-- As long as the counter has not wrapped, the ids returned from `New()` on
are `0, 1, 2, ...`. -/
theorem createdIds_New_of_le (ops : List Op) (h : numCreates ops ≤ 2 ^ 63) :
    createdIds New ops = (List.range (numCreates ops)).map (fun i : Nat => (i : Int)) := by
  rw [createdIds_New]
  apply List.map_congr_left
  intro i hi
  exact wrapInt_natCast (lt_of_lt_of_le (List.mem_range.mp hi) h)

theorem numCreates_replicate (n : Nat) (text : String) (tags : List String) (due : Time) :
    numCreates (List.replicate n (Op.createTask text tags due)) = n := by
  induction n with
  | zero => rfl
  | succ n ih => simp [List.replicate_succ, numCreates, ih]

theorem pairwise_lt_createdIds_New (ops : List Op) (h : numCreates ops ≤ 2 ^ 63) :
    (createdIds New ops).Pairwise (· < ·) := by
  rw [createdIds_New_of_le ops h, List.pairwise_map]
  exact (List.pairwise_lt_range _).imp (fun hab => Int.ofNat_lt.mpr hab)

/-! ## The claims -/

theorem zero_mem_createdIds_New_replicate (n : Nat) (hn : 0 < n) (text : String)
    (tags : List String) (due : Time) :
    0 ∈ createdIds New (List.replicate n (Op.createTask text tags due)) := by
  rw [createdIds_New, numCreates_replicate, List.mem_map]
  exact ⟨0, List.mem_range.mpr hn, wrapInt_zero⟩

/-- C2. For every store (in particular every store reachable from `New()`)
and every text, tags and due: `GetTask`, called on the id `CreateTask`
returned and on the store `CreateTask` left, succeeds (nil error) and returns
the task whose Id is that id, whose Text is `text`, whose Tags are the input
tags (same length, same elements at the same positions) and whose Due is
`due`. -/
theorem C2_get_after_create (ts : TaskStore) (text : String) (tags : List String)
    (due : Time) :
    GetTask (CreateTask ts text tags due).1 (CreateTask ts text tags due).2
        = ({ Id := (CreateTask ts text tags due).2, Text := text, Tags := tags, Due := due },
            none)
    ∧ (GetTask (CreateTask ts text tags due).1 (CreateTask ts text tags due).2).1.Tags.length
        = tags.length
    ∧ ∀ i : Nat, (GetTask (CreateTask ts text tags due).1 (CreateTask ts text tags due).2).1.Tags[i]?
        = tags[i]? := by
  have h : GetTask (CreateTask ts text tags due).1 (CreateTask ts text tags due).2
        = ({ Id := (CreateTask ts text tags due).2, Text := text, Tags := tags, Due := due },
            none) := by
    apply GetTask_of_lookup
    rw [CreateTask_tasks, CreateTask_id, AList.lookup_insert]
  refine ⟨h, ?_, ?_⟩
  · rw [h]
  · intro i; rw [h]

/-- C3. For every store and every integer id, `GetTask(id)` returns an error
if and only if no task is stored under `id`; when a task is stored under `id`
it returns exactly that task with a nil error; when none is, it returns the
zero Task and an error whose message is "task with id=<id> not found", the id
written in decimal. -/
theorem C3_GetTask_error_iff_absent (ts : TaskStore) (id : Int) :
    ((GetTask ts id).2 ≠ none ↔ id ∉ ts.tasks)
    ∧ (∀ t : Task, ts.tasks.lookup id = some t → GetTask ts id = (t, none))
    ∧ (id ∉ ts.tasks →
        GetTask ts id = (Task.zero, some ("task with id=" ++ toString id ++ " not found")))
    ∧ (GetTask New 42).2 = some "task with id=42 not found"
    ∧ (GetTask New (-7)).2 = some "task with id=-7 not found" := by
  refine ⟨?_, fun t ht => GetTask_of_lookup ht, fun h => GetTask_of_not_mem h, by decide,
    by decide⟩
  by_cases h : id ∈ ts.tasks
  · obtain ⟨t, ht⟩ := Option.isSome_iff_exists.mp (AList.lookup_isSome.mpr h)
    rw [GetTask_of_lookup ht]
    simp [h]
  · rw [GetTask_of_not_mem h]
    simp [h]

/-- C4. For every store and every integer id, `DeleteTask(id)` returns an
error if and only if no task is stored under `id`; the error message names the
id, and in the error case the store is exactly as it was (same tasks, same
nextId).  No task is stored under `id` after `DeleteTask(id)` (already
deleted), after `DeleteAllTasks()`, or in a store reached from `New()` by a
sequence in which no `CreateTask` returned `id` (never created). -/
theorem C4_DeleteTask_error_iff_absent (ts : TaskStore) (id : Int) :
    ((DeleteTask ts id).2 ≠ none ↔ id ∉ ts.tasks)
    ∧ (id ∉ ts.tasks →
        (DeleteTask ts id).2 = some ("task with id=" ++ toString id ++ " not found")
        ∧ (DeleteTask ts id).1 = ts
        ∧ (DeleteTask ts id).1.tasks = ts.tasks
        ∧ (DeleteTask ts id).1.nextId = ts.nextId)
    ∧ (DeleteTask (DeleteTask ts id).1 id).2 = some (notFound id)
    ∧ (DeleteTask (DeleteAllTasks ts).1 id).2 = some (notFound id)
    ∧ (∀ ops : List Op, id ∉ createdIds New ops →
        (DeleteTask (exec New ops) id).2 = some (notFound id)) := by
  refine ⟨?_, ?_, ?_, ?_, ?_⟩
  · by_cases h : id ∈ ts.tasks
    · rw [DeleteTask_of_mem h]
      simp [h]
    · rw [DeleteTask_of_not_mem h]
      simp [h]
  · intro h
    rw [DeleteTask_of_not_mem h]
    exact ⟨rfl, rfl, rfl, rfl⟩
  · rw [DeleteTask_of_not_mem (not_mem_DeleteTask ts id)]
  · rw [DeleteTask_of_not_mem (show id ∉ (DeleteAllTasks ts).1.tasks from AList.not_mem_empty id)]
  · intro ops hid
    have h : id ∉ (exec New ops).tasks := by
      intro hm
      rcases mem_exec hm with h0 | h0
      · exact AList.not_mem_empty id h0
      · exact hid h0
    rw [DeleteTask_of_not_mem h]

/-- The ids returned after a store has been reached from `New()`, as long as
the counter does not wrap. -/
theorem createdIds_exec_New (ops more : List Op)
    (h : numCreates ops + numCreates more ≤ 2 ^ 63) :
    createdIds (exec New ops) more
      = (List.range (numCreates more)).map (fun i : Nat => ((numCreates ops + i : Nat) : Int)) := by
  have hw : wrapInt (exec New ops).nextId = (exec New ops).nextId := by
    rw [exec_New_nextId, wrapInt_wrapInt]
  rw [createdIds_wrap _ _ hw, exec_New_nextId]
  apply List.map_congr_left
  intro i hi
  have hi' := List.mem_range.mp hi
  rw [wrapInt_wrapInt_add, ← Nat.cast_add]
  exact wrapInt_natCast (by omega)

/-- The keys of a store reached from `New()` are ids handed out before. -/
theorem mem_tasks_exec_New {ops : List Op} (h : numCreates ops ≤ 2 ^ 63) {k : Int}
    (hk : k ∈ (exec New ops).tasks) : ∃ i : Nat, i < numCreates ops ∧ k = i := by
  rcases mem_exec hk with h0 | h0
  · exact absurd h0 (AList.not_mem_empty k)
  · rw [createdIds_New_of_le ops h, List.mem_map] at h0
    obtain ⟨i, hi, rfl⟩ := h0
    exact ⟨i, List.mem_range.mp hi, rfl⟩

theorem exec_concat (ts : TaskStore) (ops : List Op) (op : Op) :
    exec ts (ops ++ [op]) = step (exec ts ops) op := by
  rw [exec_append, exec_cons, exec_nil]

/-- No later call returns an id that is below the counter or stored, as long
as the counter does not wrap. -/
theorem not_mem_createdIds_exec_New {ops more : List Op}
    (h : numCreates ops + numCreates more ≤ 2 ^ 63) {k : Int}
    (hk : k < (exec New ops).nextId ∨ k ∈ (exec New ops).tasks) :
    k ∉ createdIds (exec New ops) more := by
  rw [createdIds_exec_New ops more h, List.mem_map]
  rintro ⟨i, hi, rfl⟩
  have hi' := List.mem_range.mp hi
  rcases hk with hk | hk
  · rw [exec_New_nextId, wrapInt_natCast (by omega)] at hk
    have := Int.ofNat_lt.mp hk
    omega
  · obtain ⟨j, hj, hjk⟩ := mem_tasks_exec_New (by omega) hk
    have := Int.ofNat_inj.mp hjk
    omega

/-- C5 (amended). For every store and every id k, right after `DeleteTask(k)`
has been called (whether it succeeded or failed) `GetTask(k)` fails with the
not-found error for k, and it keeps failing after any further operations
among which no `CreateTask` call returns k.  In a store reached from `New()`
that is so for every k below `nextId` and for every stored k (in particular
whenever `DeleteTask(k)` succeeded), whatever calls follow, later `CreateTask`
calls included, as long as at most `2^63` `CreateTask` calls are made in all
(`nextId` has not wrapped around). -/
theorem C5_get_after_delete_fails (ts : TaskStore) (k : Int) :
    GetTask (DeleteTask ts k).1 k = (Task.zero, some (notFound k))
    ∧ (∀ more : List Op, k ∉ createdIds (DeleteTask ts k).1 more →
        GetTask (exec (DeleteTask ts k).1 more) k = (Task.zero, some (notFound k)))
    ∧ (∀ ops more : List Op, ts = exec New ops →
        numCreates ops + numCreates more ≤ 2 ^ 63 →
        (k < ts.nextId ∨ k ∈ ts.tasks) →
        GetTask (exec (DeleteTask ts k).1 more) k = (Task.zero, some (notFound k))) := by
  have key : ∀ more : List Op, k ∉ createdIds (DeleteTask ts k).1 more →
      GetTask (exec (DeleteTask ts k).1 more) k = (Task.zero, some (notFound k)) := by
    intro more hk
    apply GetTask_of_not_mem
    intro hm
    rcases mem_exec hm with h0 | h0
    · exact not_mem_DeleteTask ts k h0
    · exact hk h0
  refine ⟨GetTask_of_not_mem (not_mem_DeleteTask ts k), key, ?_⟩
  intro ops more hts hn hk
  apply key
  have e : createdIds (DeleteTask ts k).1 more
      = createdIds (exec New ops) (Op.deleteTask k :: more) := by
    rw [createdIds_cons, ← hts]; rfl
  rw [e]
  apply not_mem_createdIds_exec_New (by simpa [numCreates] using hn)
  rw [← hts]
  exact hk

/-- Witness of C5: in the store reached by two creations, task 0 is deleted;
after a further creation and a read `GetTask(0)` still fails. -/
theorem C5_get_after_delete_fails_witness :
    GetTask
        (exec
          (DeleteTask (exec New [Op.createTask "a" [] Time.zero, Op.createTask "b" [] Time.zero])
            0).1
          [Op.createTask "c" [] Time.zero, Op.getAllTasks]) 0
      = (Task.zero, some "task with id=0 not found") :=
  (C5_get_after_delete_fails
      (exec New [Op.createTask "a" [] Time.zero, Op.createTask "b" [] Time.zero]) 0).2.2
    [Op.createTask "a" [] Time.zero, Op.createTask "b" [] Time.zero]
    [Op.createTask "c" [] Time.zero, Op.getAllTasks] rfl (by simp [numCreates])
    (Or.inr (by decide))

/-- Counterexample to C5 as stated: on the store built by `New()`,
`DeleteTask(0)` is called (and fails, nothing being stored); the next
`CreateTask` returns 0 and `GetTask(0)` then succeeds. -/
theorem C5_counterexample_id_assigned_later :
    (DeleteTask New 0).2 = some "task with id=0 not found"
    ∧ (CreateTask (DeleteTask New 0).1 "x" [] Time.zero).2 = 0
    ∧ GetTask (CreateTask (DeleteTask New 0).1 "x" [] Time.zero).1 0
        = ({ Id := 0, Text := "x", Tags := [], Due := Time.zero }, none) := by
  decide

/-! ### The scanning loops -/

theorem foldl_GetAllTasks (acc : List Task) (order : List (Sigma fun _ : Int => Task)) :
    order.foldl (fun allTasks e => allTasks ++ [e.2]) acc = acc ++ order.map (fun e => e.2) := by
  induction order generalizing acc with
  | nil => simp
  | cons e order ih => simp [List.foldl_cons, ih]

/-- The loop of `GetAllTasks` collects the task of every visited entry. -/
theorem GetAllTasks_eq_map (ts : TaskStore) (order : List (Sigma fun _ : Int => Task)) :
    GetAllTasks ts order = order.map (fun e => e.2) := by
  simp [GetAllTasks, foldl_GetAllTasks]

/-- The inner loop of `GetTaskByTag` appends the task once when the tag occurs
among its tags, and leaves the result alone otherwise. -/
theorem tagLoop_eq (tag : String) (task : Task) (tasks : List Task) (tags : List String) :
    tagLoop tag task tasks tags = if tag ∈ tags then tasks ++ [task] else tasks := by
  induction tags with
  | nil => simp [tagLoop]
  | cons tasktag rest ih =>
    by_cases h : tasktag = tag
    · simp [tagLoop, h]
    · have h' : ¬ tag = tasktag := fun e => h e.symm
      simp [tagLoop, h, h', ih]

theorem foldl_GetTaskByTag (tag : String) (acc : List Task)
    (order : List (Sigma fun _ : Int => Task)) :
    order.foldl (fun tasks e => tagLoop tag e.2 tasks e.2.Tags) acc
      = acc ++ (order.filter (fun e => decide (tag ∈ e.2.Tags))).map (fun e => e.2) := by
  induction order generalizing acc with
  | nil => simp
  | cons e order ih =>
    rw [List.foldl_cons, ih, tagLoop_eq]
    by_cases h : tag ∈ e.2.Tags
    · simp [h]
    · simp [h]

/-- The loop of `GetTaskByTag` keeps the visited entries one of whose tags is
`tag`. -/
theorem GetTaskByTag_eq_filter (ts : TaskStore) (order : List (Sigma fun _ : Int => Task))
    (tag : String) :
    GetTaskByTag ts order tag
      = (order.filter (fun e => decide (tag ∈ e.2.Tags))).map (fun e => e.2) := by
  simp [GetTaskByTag, foldl_GetTaskByTag]

theorem foldl_GetTaskByDueDate (year month day : Int) (acc : List Task)
    (order : List (Sigma fun _ : Int => Task)) :
    order.foldl
        (fun tasks e =>
          match e.2.Due.Date with
          | (y, m, d) => if y = year ∧ m = month ∧ d = day then tasks ++ [e.2] else tasks)
        acc
      = acc ++ (order.filter
          (fun e => decide (e.2.Due.year = year ∧ e.2.Due.month = month ∧ e.2.Due.day = day))).map
            (fun e => e.2) := by
  induction order generalizing acc with
  | nil => simp
  | cons e order ih =>
    rw [List.foldl_cons, ih]
    by_cases h : e.2.Due.year = year ∧ e.2.Due.month = month ∧ e.2.Due.day = day
    · simp [Time.Date, h]
    · simp [Time.Date, h]

/-- The loop of `GetTaskByDueDate` keeps the visited entries whose due date
is the given one. -/
theorem GetTaskByDueDate_eq_filter (ts : TaskStore)
    (order : List (Sigma fun _ : Int => Task)) (year month day : Int) :
    GetTaskByDueDate ts order year month day
      = (order.filter
          (fun e => decide (e.2.Due.year = year ∧ e.2.Due.month = month ∧ e.2.Due.day = day))).map
            (fun e => e.2) := by
  simp [GetTaskByDueDate, foldl_GetTaskByDueDate]

theorem DeleteAllTasks_nextId (ts : TaskStore) :
    (DeleteAllTasks ts).1.nextId = ts.nextId := rfl

/-- C6 (amended). For every store reachable from `New()`, `DeleteAllTasks()`
returns no error, afterwards `GetAllTasks()` is empty, `nextId` has the value
it had before the call, and, as long as at most `2^63` `CreateTask` calls are
made in all (`nextId` has not wrapped around), every later `CreateTask`, the
next one in particular, returns an id strictly greater than every id assigned
before the `DeleteAllTasks` call. -/
theorem C6_delete_all_keeps_high_water_mark (ops : List Op) :
    (DeleteAllTasks (exec New ops)).2 = none
    ∧ (∀ order : List (Sigma fun _ : Int => Task),
        RangeOrder (DeleteAllTasks (exec New ops)).1.tasks order →
          GetAllTasks (DeleteAllTasks (exec New ops)).1 order = [])
    ∧ (DeleteAllTasks (exec New ops)).1.nextId = (exec New ops).nextId
    ∧ (numCreates ops < 2 ^ 63 →
        ∀ (text : String) (tags : List String) (due : Time), ∀ j ∈ createdIds New ops,
          j < (CreateTask (DeleteAllTasks (exec New ops)).1 text tags due).2)
    ∧ (∀ more : List Op, numCreates ops + numCreates more ≤ 2 ^ 63 →
        ∀ j ∈ createdIds New ops, ∀ j' ∈ createdIds (DeleteAllTasks (exec New ops)).1 more,
          j < j') := by
  have later : ∀ more : List Op, numCreates ops + numCreates more ≤ 2 ^ 63 →
      ∀ j ∈ createdIds New ops, ∀ j' ∈ createdIds (DeleteAllTasks (exec New ops)).1 more,
        j < j' := by
    intro more hn j hj j' hj'
    have hp := pairwise_lt_createdIds_New (ops ++ Op.deleteAllTasks :: more)
      (by rw [numCreates_append]; simpa [numCreates] using hn)
    rw [createdIds_append, List.pairwise_append] at hp
    apply hp.2.2 j hj j'
    rw [createdIds_cons]
    exact hj'
  refine ⟨rfl, ?_, rfl, ?_, later⟩
  · intro order ho
    have : order = [] := List.Perm.eq_nil ho
    rw [this]; rfl
  · intro hn text tags due j hj
    apply later [Op.createTask text tags due] (by simp only [numCreates]; omega) j hj
    simp [createdIds]

/-- Witness of C6: after two creations and `DeleteAllTasks()`, the next
`CreateTask` returns 2, above the ids 0 and 1 assigned before. -/
theorem C6_delete_all_keeps_high_water_mark_witness :
    (CreateTask
        (DeleteAllTasks
          (exec New [Op.createTask "a" [] Time.zero, Op.createTask "b" [] Time.zero])).1
        "c" [] Time.zero).2 = 2
    ∧ ∀ j ∈ createdIds New [Op.createTask "a" [] Time.zero, Op.createTask "b" [] Time.zero],
        j < (CreateTask
          (DeleteAllTasks
            (exec New [Op.createTask "a" [] Time.zero, Op.createTask "b" [] Time.zero])).1
          "c" [] Time.zero).2 :=
  ⟨by decide,
   (C6_delete_all_keeps_high_water_mark
      [Op.createTask "a" [] Time.zero, Op.createTask "b" [] Time.zero]).2.2.2.1
      (by simp [numCreates]) "c" [] Time.zero⟩

/-- Counterexample to C6 as stated: after `2^63` calls of `CreateTask` on a
store built by `New()`, the first of which returned 0, and `DeleteAllTasks()`,
the next `CreateTask` returns `-2^63`, which is not greater than 0. -/
theorem C6_counterexample_wrap_around :
    (0 : Int) ∈ createdIds New (List.replicate (2 ^ 63) (Op.createTask "" [] Time.zero))
    ∧ (CreateTask
        (DeleteAllTasks (exec New (List.replicate (2 ^ 63) (Op.createTask "" [] Time.zero)))).1
        "" [] Time.zero).2 = -9223372036854775808
    ∧ ¬ ∀ j ∈ createdIds New (List.replicate (2 ^ 63) (Op.createTask "" [] Time.zero)),
        j < (CreateTask
          (DeleteAllTasks (exec New (List.replicate (2 ^ 63) (Op.createTask "" [] Time.zero)))).1
          "" [] Time.zero).2 := by
  have h0 := zero_mem_createdIds_New_replicate (2 ^ 63) (Nat.pow_pos (by decide)) "" []
    Time.zero
  have hid : (CreateTask
        (DeleteAllTasks (exec New (List.replicate (2 ^ 63) (Op.createTask "" [] Time.zero)))).1
        "" [] Time.zero).2 = -9223372036854775808 := by
    rw [CreateTask_id, DeleteAllTasks_nextId, exec_New_nextId, numCreates_replicate]
    exact wrapInt_two_pow
  refine ⟨h0, hid, ?_⟩
  intro hall
  have := hall 0 h0
  rw [hid] at this
  exact absurd this (by decide)

/-! ### Invariant: every key is the Id of its task -/

theorem GetTask_eq_iff (ts : TaskStore) (id : Int) (t : Task) :
    GetTask ts id = (t, none) ↔ ts.tasks.lookup id = some t := by
  constructor
  · intro h
    cases hl : ts.tasks.lookup id with
    | none => simp [GetTask, hl] at h
    | some t' =>
      simp only [GetTask, hl, Prod.mk.injEq, and_true] at h
      rw [h]
  · exact GetTask_of_lookup

theorem lookup_iff_mem_entries (m : TaskMap) (k : Int) (t : Task) :
    m.lookup k = some t ↔ (⟨k, t⟩ : Sigma fun _ : Int => Task) ∈ m.entries := by
  rw [← AList.mem_lookup_iff]
  simp [Option.mem_def]

theorem step_key_eq_id {ts : TaskStore} (op : Op)
    (h : ∀ (k : Int) (t : Task), ts.tasks.lookup k = some t → t.Id = k) :
    ∀ (k : Int) (t : Task), (step ts op).tasks.lookup k = some t → t.Id = k := by
  intro k t hk
  cases op with
  | createTask text tags due =>
    simp only [step, CreateTask_tasks] at hk
    by_cases e : k = ts.nextId
    · subst e
      rw [AList.lookup_insert] at hk
      cases hk
      rfl
    · rw [AList.lookup_insert_ne e] at hk
      exact h k t hk
  | deleteTask id =>
    simp only [step] at hk
    by_cases hm : id ∈ ts.tasks
    · rw [DeleteTask_of_mem hm] at hk
      by_cases e : k = id
      · subst e
        simp [AList.lookup_erase] at hk
      · rw [AList.lookup_erase_ne e] at hk
        exact h k t hk
    · rw [DeleteTask_of_not_mem hm] at hk
      exact h k t hk
  | deleteAllTasks => simp [step, DeleteAllTasks] at hk
  | getTask _ => exact h k t hk
  | getAllTasks => exact h k t hk
  | getTaskByTag _ => exact h k t hk
  | getTaskByDueDate _ _ _ => exact h k t hk

theorem exec_key_eq_id {ts : TaskStore} (ops : List Op)
    (h : ∀ (k : Int) (t : Task), ts.tasks.lookup k = some t → t.Id = k) :
    ∀ (k : Int) (t : Task), (exec ts ops).tasks.lookup k = some t → t.Id = k := by
  induction ops generalizing ts with
  | nil => exact h
  | cons op ops ih =>
    rw [exec_cons]
    exact ih (step_key_eq_id op h)

/-- In a store reachable from `New()` every task is stored under its Id. -/
theorem Reachable.key_eq_id {ts : TaskStore} (hr : Reachable ts) :
    ∀ (k : Int) (t : Task), ts.tasks.lookup k = some t → t.Id = k := by
  obtain ⟨ops, rfl⟩ := hr
  apply exec_key_eq_id
  intro k t hk
  simp [New] at hk

/-- In a store reachable from `New()` the stored tasks are pairwise distinct,
whatever the order they are visited in. -/
theorem Reachable.nodup_tasks {ts : TaskStore} (hr : Reachable ts)
    {order : List (Sigma fun _ : Int => Task)} (ho : RangeOrder ts.tasks order) :
    (order.map (fun e => e.2)).Nodup := by
  have hnd : order.Nodup := (List.Perm.nodup_iff ho).mpr ts.tasks.nodupKeys.nodup
  apply List.Nodup.map_on _ hnd
  rintro ⟨k, t⟩ hx ⟨k', t'⟩ hy hxy
  have h1 := hr.key_eq_id k t ((lookup_iff_mem_entries _ _ _).mpr (ho.mem_iff.mp hx))
  have h2 := hr.key_eq_id k' t' ((lookup_iff_mem_entries _ _ _).mpr (ho.mem_iff.mp hy))
  simp only at hxy
  subst hxy
  rw [← h1, ← h2]

theorem mem_order_iff {ts : TaskStore} {order : List (Sigma fun _ : Int => Task)}
    (ho : RangeOrder ts.tasks order) (k : Int) (t : Task) :
    (⟨k, t⟩ : Sigma fun _ : Int => Task) ∈ order ↔ ts.tasks.lookup k = some t := by
  rw [lookup_iff_mem_entries]
  exact ho.mem_iff

/-- C7. For every store reachable from `New()` and every order in which the
map may be visited, `GetAllTasks()` returns exactly the stored tasks: a task
t occurs in the result if and only if `GetTask(t.Id)` succeeds and returns t,
each task of the result occurs in it exactly once, and the length of the
result is the number of stored tasks. -/
theorem C7_GetAllTasks_exactly_stored (ts : TaskStore) (hr : Reachable ts)
    (order : List (Sigma fun _ : Int => Task)) (ho : RangeOrder ts.tasks order) :
    (∀ t : Task, t ∈ GetAllTasks ts order ↔ GetTask ts t.Id = (t, none))
    ∧ (∀ t ∈ GetAllTasks ts order, (GetAllTasks ts order).count t = 1)
    ∧ (GetAllTasks ts order).length = ts.tasks.entries.length
    ∧ (GetAllTasks ts order).length = ts.tasks.keys.length := by
  have hnd := hr.nodup_tasks ho
  rw [GetAllTasks_eq_map]
  refine ⟨?_, fun t ht => List.count_eq_one_of_mem hnd ht, ?_, ?_⟩
  · intro t
    rw [GetTask_eq_iff, List.mem_map]
    constructor
    · rintro ⟨⟨k, t'⟩, he, rfl⟩
      have hl := (mem_order_iff ho k t').mp he
      rw [hr.key_eq_id k t' hl]
      exact hl
    · intro hl
      exact ⟨⟨t.Id, t⟩, (mem_order_iff ho t.Id t).mpr hl, rfl⟩
  · rw [List.length_map]
    exact ho.length_eq
  · rw [List.length_map, AList.keys, List.keys, List.length_map]
    exact ho.length_eq

/-- Witness of C7: the store after two creations and the deletion of the
first task, visited in the order of its entries. -/
theorem C7_GetAllTasks_exactly_stored_witness :
    GetAllTasks
        (exec New [Op.createTask "a" ["x"] Time.zero, Op.createTask "b" [] Time.zero,
          Op.deleteTask 0])
        (exec New [Op.createTask "a" ["x"] Time.zero, Op.createTask "b" [] Time.zero,
          Op.deleteTask 0]).tasks.entries
      = [{ Id := 1, Text := "b", Tags := [], Due := Time.zero }]
    ∧ ∀ t : Task,
        t ∈ GetAllTasks
          (exec New [Op.createTask "a" ["x"] Time.zero, Op.createTask "b" [] Time.zero,
            Op.deleteTask 0])
          (exec New [Op.createTask "a" ["x"] Time.zero, Op.createTask "b" [] Time.zero,
            Op.deleteTask 0]).tasks.entries
        ↔ GetTask
          (exec New [Op.createTask "a" ["x"] Time.zero, Op.createTask "b" [] Time.zero,
            Op.deleteTask 0]) t.Id = (t, none) :=
  ⟨by decide,
   (C7_GetAllTasks_exactly_stored
      (exec New [Op.createTask "a" ["x"] Time.zero, Op.createTask "b" [] Time.zero,
        Op.deleteTask 0])
      ⟨_, rfl⟩ _ (List.Perm.refl _)).1⟩

/-- C8. For every store, every order in which the map may be visited and
every string tag: a stored task occurs in `GetTaskByTag(tag)` if and only if
some element of its Tags is equal to `tag` (equality of strings, so
case-sensitive); the result holds stored tasks only, one occurrence for every
stored entry that matches, however often `tag` occurs in its Tags, so that in
a store reachable from `New()` every task of the result occurs in it exactly
once; and the result is empty (length 0) when no stored task matches. -/
theorem C8_GetTaskByTag_membership (ts : TaskStore)
    (order : List (Sigma fun _ : Int => Task)) (ho : RangeOrder ts.tasks order)
    (tag : String) :
    (∀ (k : Int) (t : Task), ts.tasks.lookup k = some t →
        (t ∈ GetTaskByTag ts order tag ↔ ∃ tasktag ∈ t.Tags, tasktag = tag))
    ∧ (∀ t ∈ GetTaskByTag ts order tag, ∃ k : Int, ts.tasks.lookup k = some t)
    ∧ (GetTaskByTag ts order tag).Perm
        ((ts.tasks.entries.filter (fun e => decide (tag ∈ e.2.Tags))).map (fun e => e.2))
    ∧ (Reachable ts →
        ∀ t ∈ GetTaskByTag ts order tag, (GetTaskByTag ts order tag).count t = 1)
    ∧ ((∀ (k : Int) (t : Task), ts.tasks.lookup k = some t → tag ∉ t.Tags) →
        GetTaskByTag ts order tag = [] ∧ (GetTaskByTag ts order tag).length = 0) := by
  rw [GetTaskByTag_eq_filter]
  refine ⟨?_, ?_, ?_, ?_, ?_⟩
  · intro k t hl
    simp only [List.mem_map, List.mem_filter, decide_eq_true_eq, exists_eq_right]
    constructor
    · rintro ⟨e, ⟨_, htag⟩, rfl⟩
      exact htag
    · intro htag
      exact ⟨⟨k, t⟩, ⟨(mem_order_iff ho k t).mpr hl, htag⟩, rfl⟩
  · intro t ht
    simp only [List.mem_map, List.mem_filter] at ht
    obtain ⟨⟨k, t'⟩, ⟨he, _⟩, rfl⟩ := ht
    exact ⟨k, (mem_order_iff ho k t').mp he⟩
  · exact (List.Perm.filter _ ho).map _
  · intro hr t ht
    apply List.count_eq_one_of_mem _ ht
    exact List.Nodup.sublist (List.Sublist.map _ (List.filter_sublist order))
      (hr.nodup_tasks ho)
  · intro hnone
    have : order.filter (fun e => decide (tag ∈ e.2.Tags)) = [] := by
      rw [List.filter_eq_nil_iff]
      rintro ⟨k, t⟩ he
      simpa using hnone k t ((mem_order_iff ho k t).mp he)
    rw [this]
    exact ⟨rfl, rfl⟩

/-- Witness of C8: of three stored tasks, the one tagged "home" twice is
returned once for "home"; the one tagged "Home" is not returned. -/
theorem C8_GetTaskByTag_membership_witness :
    GetTaskByTag
        (exec New [Op.createTask "a" ["home", "home"] Time.zero,
          Op.createTask "b" ["Home"] Time.zero, Op.createTask "c" [] Time.zero])
        (exec New [Op.createTask "a" ["home", "home"] Time.zero,
          Op.createTask "b" ["Home"] Time.zero, Op.createTask "c" [] Time.zero]).tasks.entries
        "home"
      = [{ Id := 0, Text := "a", Tags := ["home", "home"], Due := Time.zero }]
    ∧ (GetTaskByTag
        (exec New [Op.createTask "a" ["home", "home"] Time.zero,
          Op.createTask "b" ["Home"] Time.zero, Op.createTask "c" [] Time.zero])
        (exec New [Op.createTask "a" ["home", "home"] Time.zero,
          Op.createTask "b" ["Home"] Time.zero, Op.createTask "c" [] Time.zero]).tasks.entries
        "home").Perm
        (((exec New [Op.createTask "a" ["home", "home"] Time.zero,
          Op.createTask "b" ["Home"] Time.zero,
          Op.createTask "c" [] Time.zero]).tasks.entries.filter
            (fun e => decide ("home" ∈ e.2.Tags))).map (fun e => e.2)) :=
  ⟨by decide,
   (C8_GetTaskByTag_membership
      (exec New [Op.createTask "a" ["home", "home"] Time.zero,
        Op.createTask "b" ["Home"] Time.zero, Op.createTask "c" [] Time.zero])
      _ (List.Perm.refl _) "home").2.2.1⟩

/-- C9. For every store, every order in which the map may be visited and
every year, month and day: a stored task occurs in
`GetTaskByDueDate(year, month, day)` if and only if the year, month and day of
the calendar date of its Due all equal the inputs, whatever its time of day;
the result holds stored tasks only, one occurrence for every stored entry that
matches, so that in a store reachable from `New()` every task of the result
occurs in it exactly once; and the result is empty when no stored task
matches. -/
theorem C9_GetTaskByDueDate_membership (ts : TaskStore)
    (order : List (Sigma fun _ : Int => Task)) (ho : RangeOrder ts.tasks order)
    (year month day : Int) :
    (∀ (k : Int) (t : Task), ts.tasks.lookup k = some t →
        (t ∈ GetTaskByDueDate ts order year month day ↔ t.Due.Date = (year, month, day)))
    ∧ (∀ t ∈ GetTaskByDueDate ts order year month day, ∃ k : Int, ts.tasks.lookup k = some t)
    ∧ (GetTaskByDueDate ts order year month day).Perm
        ((ts.tasks.entries.filter
          (fun e => decide (e.2.Due.Date = (year, month, day)))).map (fun e => e.2))
    ∧ (Reachable ts →
        ∀ t ∈ GetTaskByDueDate ts order year month day,
          (GetTaskByDueDate ts order year month day).count t = 1)
    ∧ ((∀ (k : Int) (t : Task), ts.tasks.lookup k = some t →
          t.Due.Date ≠ (year, month, day)) →
        GetTaskByDueDate ts order year month day = []) := by
  have hd : ∀ t : Task, t.Due.Date = (year, month, day)
      ↔ (t.Due.year = year ∧ t.Due.month = month ∧ t.Due.day = day) := by
    intro t
    simp [Time.Date]
  have hf : (fun e : (Sigma fun _ : Int => Task) => decide (e.2.Due.Date = (year, month, day)))
      = (fun e => decide (e.2.Due.year = year ∧ e.2.Due.month = month ∧ e.2.Due.day = day)) := by
    funext e
    simp [Time.Date]
  rw [GetTaskByDueDate_eq_filter, hf]
  refine ⟨?_, ?_, ?_, ?_, ?_⟩
  · intro k t hl
    rw [hd]
    simp only [List.mem_map, List.mem_filter, decide_eq_true_eq]
    constructor
    · rintro ⟨e, ⟨_, hdate⟩, rfl⟩
      exact hdate
    · intro hdate
      exact ⟨⟨k, t⟩, ⟨(mem_order_iff ho k t).mpr hl, hdate⟩, rfl⟩
  · intro t ht
    simp only [List.mem_map, List.mem_filter] at ht
    obtain ⟨⟨k, t'⟩, ⟨he, _⟩, rfl⟩ := ht
    exact ⟨k, (mem_order_iff ho k t').mp he⟩
  · exact (List.Perm.filter _ ho).map _
  · intro hr t ht
    apply List.count_eq_one_of_mem _ ht
    exact List.Nodup.sublist (List.Sublist.map _ (List.filter_sublist order))
      (hr.nodup_tasks ho)
  · intro hnone
    have : order.filter
        (fun e => decide (e.2.Due.year = year ∧ e.2.Due.month = month ∧ e.2.Due.day = day))
        = [] := by
      rw [List.filter_eq_nil_iff]
      rintro ⟨k, t⟩ he
      have := hnone k t ((mem_order_iff ho k t).mp he)
      rw [Ne, hd] at this
      simpa using this
    rw [this]
    rfl

/-- Witness of C9: two tasks due on 2024-01-05 at different times of day both
match that date, a task due on 2024-01-06 does not. -/
theorem C9_GetTaskByDueDate_membership_witness :
    GetTaskByDueDate
        (exec New [Op.createTask "a" [] ⟨2024, 1, 5, 0, 0, 0, 0, 0⟩,
          Op.createTask "b" [] ⟨2024, 1, 6, 9, 0, 0, 0, 0⟩,
          Op.createTask "c" [] ⟨2024, 1, 5, 23, 59, 59, 0, 3600⟩, Op.deleteTask 7])
        [⟨0, { Id := 0, Text := "a", Tags := [], Due := ⟨2024, 1, 5, 0, 0, 0, 0, 0⟩ }⟩,
         ⟨1, { Id := 1, Text := "b", Tags := [], Due := ⟨2024, 1, 6, 9, 0, 0, 0, 0⟩ }⟩,
         ⟨2, { Id := 2, Text := "c", Tags := [], Due := ⟨2024, 1, 5, 23, 59, 59, 0, 3600⟩ }⟩]
        2024 1 5
      = [{ Id := 0, Text := "a", Tags := [], Due := ⟨2024, 1, 5, 0, 0, 0, 0, 0⟩ },
         { Id := 2, Text := "c", Tags := [], Due := ⟨2024, 1, 5, 23, 59, 59, 0, 3600⟩ }]
    ∧ ∀ (k : Int) (t : Task),
        (exec New [Op.createTask "a" [] ⟨2024, 1, 5, 0, 0, 0, 0, 0⟩,
          Op.createTask "b" [] ⟨2024, 1, 6, 9, 0, 0, 0, 0⟩,
          Op.createTask "c" [] ⟨2024, 1, 5, 23, 59, 59, 0, 3600⟩,
          Op.deleteTask 7]).tasks.lookup k = some t →
        (t ∈ GetTaskByDueDate
          (exec New [Op.createTask "a" [] ⟨2024, 1, 5, 0, 0, 0, 0, 0⟩,
            Op.createTask "b" [] ⟨2024, 1, 6, 9, 0, 0, 0, 0⟩,
            Op.createTask "c" [] ⟨2024, 1, 5, 23, 59, 59, 0, 3600⟩, Op.deleteTask 7])
          [⟨0, { Id := 0, Text := "a", Tags := [], Due := ⟨2024, 1, 5, 0, 0, 0, 0, 0⟩ }⟩,
           ⟨1, { Id := 1, Text := "b", Tags := [], Due := ⟨2024, 1, 6, 9, 0, 0, 0, 0⟩ }⟩,
           ⟨2, { Id := 2, Text := "c", Tags := [], Due := ⟨2024, 1, 5, 23, 59, 59, 0, 3600⟩ }⟩]
          2024 1 5
        ↔ t.Due.Date = (2024, 1, 5)) :=
  ⟨by decide,
   (C9_GetTaskByDueDate_membership
      (exec New [Op.createTask "a" [] ⟨2024, 1, 5, 0, 0, 0, 0, 0⟩,
        Op.createTask "b" [] ⟨2024, 1, 6, 9, 0, 0, 0, 0⟩,
        Op.createTask "c" [] ⟨2024, 1, 5, 23, 59, 59, 0, 3600⟩, Op.deleteTask 7])
      _ (by decide) 2024 1 5).1⟩

theorem scenario_entries (dueA dueB dueC : Time) :
    (exec New (scenarioOps dueA dueB dueC)).tasks.entries
      = [⟨2, scenarioC dueC⟩, ⟨1, scenarioB dueB⟩, ⟨0, scenarioA dueA⟩] := by
  rfl

theorem scenario_entries_after_delete (dueA dueB dueC : Time) :
    (DeleteTask (exec New (scenarioOps dueA dueB dueC)) 1).1.tasks.entries
      = [⟨2, scenarioC dueC⟩, ⟨0, scenarioA dueA⟩] := by
  rfl

/-- C10. The scenario on a store built by `New()`, for tasks A and B due at
any time of day on 2024-01-05 and C at any time of day on 2024-02-01: the
three creations return the ids 0, 1, 2; whatever order the map is visited in,
`GetTaskByTag("home")` holds exactly A and C and
`GetTaskByDueDate(2024, 1, 5)` exactly A and B, each once; `DeleteTask(1)`
succeeds and `GetAllTasks()` then holds exactly A and C, each once; a second
`DeleteTask(1)` fails with the not-found error for id 1. -/
theorem C10_scenario (dueA dueB dueC : Time)
    (hA : dueA.Date = (2024, 1, 5)) (hB : dueB.Date = (2024, 1, 5))
    (hC : dueC.Date = (2024, 2, 1)) :
    createdIds New (scenarioOps dueA dueB dueC) = [0, 1, 2]
    ∧ (∀ order : List (Sigma fun _ : Int => Task),
        RangeOrder (exec New (scenarioOps dueA dueB dueC)).tasks order →
          (GetTaskByTag (exec New (scenarioOps dueA dueB dueC)) order "home").Perm
            [scenarioA dueA, scenarioC dueC])
    ∧ (∀ order : List (Sigma fun _ : Int => Task),
        RangeOrder (exec New (scenarioOps dueA dueB dueC)).tasks order →
          (GetTaskByDueDate (exec New (scenarioOps dueA dueB dueC)) order 2024 1 5).Perm
            [scenarioA dueA, scenarioB dueB])
    ∧ (DeleteTask (exec New (scenarioOps dueA dueB dueC)) 1).2 = none
    ∧ (∀ order : List (Sigma fun _ : Int => Task),
        RangeOrder (DeleteTask (exec New (scenarioOps dueA dueB dueC)) 1).1.tasks order →
          (GetAllTasks (DeleteTask (exec New (scenarioOps dueA dueB dueC)) 1).1 order).Perm
            [scenarioA dueA, scenarioC dueC])
    ∧ (DeleteTask (DeleteTask (exec New (scenarioOps dueA dueB dueC)) 1).1 1).2
        = some "task with id=1 not found" := by
  simp only [Time.Date, Prod.mk.injEq] at hA hB hC
  refine ⟨rfl, ?_, ?_, rfl, ?_, rfl⟩
  · intro order ho
    rw [GetTaskByTag_eq_filter]
    refine ((List.Perm.filter _ ho).map _).trans ?_
    rw [scenario_entries]
    have e : (List.filter (fun e : (Sigma fun _ : Int => Task) => decide ("home" ∈ e.2.Tags))
        [⟨2, scenarioC dueC⟩, ⟨1, scenarioB dueB⟩, ⟨0, scenarioA dueA⟩]).map (fun e => e.2)
        = [scenarioC dueC, scenarioA dueA] := by
      simp [List.filter, scenarioA, scenarioB, scenarioC]
    rw [e]
    exact List.Perm.swap _ _ _
  · intro order ho
    rw [GetTaskByDueDate_eq_filter]
    refine ((List.Perm.filter _ ho).map _).trans ?_
    rw [scenario_entries]
    have e : (List.filter
        (fun e : (Sigma fun _ : Int => Task) =>
          decide (e.2.Due.year = 2024 ∧ e.2.Due.month = 1 ∧ e.2.Due.day = 5))
        [⟨2, scenarioC dueC⟩, ⟨1, scenarioB dueB⟩, ⟨0, scenarioA dueA⟩]).map (fun e => e.2)
        = [scenarioB dueB, scenarioA dueA] := by
      simp [List.filter, scenarioA, scenarioB, scenarioC, hA, hB, hC]
    rw [e]
    exact List.Perm.swap _ _ _
  · intro order ho
    rw [GetAllTasks_eq_map]
    refine (List.Perm.map _ ho).trans ?_
    rw [scenario_entries_after_delete]
    exact List.Perm.swap _ _ _

/-- Witness of C10: A due at midnight and B at 17:30 on 2024-01-05, C at noon
on 2024-02-01. -/
theorem C10_scenario_witness :
    createdIds New
        (scenarioOps ⟨2024, 1, 5, 0, 0, 0, 0, 0⟩ ⟨2024, 1, 5, 17, 30, 0, 0, 0⟩
          ⟨2024, 2, 1, 12, 0, 0, 0, 0⟩) = [0, 1, 2]
    ∧ (DeleteTask
        (DeleteTask
          (exec New
            (scenarioOps ⟨2024, 1, 5, 0, 0, 0, 0, 0⟩ ⟨2024, 1, 5, 17, 30, 0, 0, 0⟩
              ⟨2024, 2, 1, 12, 0, 0, 0, 0⟩)) 1).1 1).2
        = some "task with id=1 not found" :=
  ⟨(C10_scenario ⟨2024, 1, 5, 0, 0, 0, 0, 0⟩ ⟨2024, 1, 5, 17, 30, 0, 0, 0⟩
      ⟨2024, 2, 1, 12, 0, 0, 0, 0⟩ rfl rfl rfl).1,
   (C10_scenario ⟨2024, 1, 5, 0, 0, 0, 0, 0⟩ ⟨2024, 1, 5, 17, 30, 0, 0, 0⟩
      ⟨2024, 2, 1, 12, 0, 0, 0, 0⟩ rfl rfl rfl).2.2.2.2.2⟩

/-- C11. The store built by `New()` has no tasks and `nextId = 0`: whatever
order an (empty) map is visited in, `GetAllTasks()` is empty and so are
`GetTaskByTag` and `GetTaskByDueDate` for every argument; `GetTask(id)` and
`DeleteTask(id)` fail with the not-found error for every integer id, and the
failing `DeleteTask` leaves the store as built. -/
theorem C11_New_is_empty :
    New.tasks.entries = [] ∧ New.tasks.keys = [] ∧ New.nextId = 0
    ∧ (∀ order : List (Sigma fun _ : Int => Task), RangeOrder New.tasks order →
        GetAllTasks New order = []
        ∧ (∀ tag : String, GetTaskByTag New order tag = [])
        ∧ (∀ year month day : Int, GetTaskByDueDate New order year month day = []))
    ∧ (∀ id : Int, GetTask New id
        = (Task.zero, some ("task with id=" ++ toString id ++ " not found")))
    ∧ (∀ id : Int, DeleteTask New id
        = (New, some ("task with id=" ++ toString id ++ " not found"))) := by
  refine ⟨rfl, rfl, rfl, ?_, ?_, ?_⟩
  · intro order ho
    have : order = [] := List.Perm.eq_nil ho
    subst this
    exact ⟨rfl, fun _ => rfl, fun _ _ _ => rfl⟩
  · intro id
    exact GetTask_of_not_mem (AList.not_mem_empty id)
  · intro id
    exact DeleteTask_of_not_mem (AList.not_mem_empty id)

theorem step_nextId_of_not_create (ts : TaskStore) (op : Op) (h : numCreates [op] = 0) :
    (step ts op).nextId = ts.nextId := by
  rw [step_nextId]
  cases op <;> simp_all [numCreates]

/-- C12 (amended). `nextId` starts at 0, `DeleteTask`, `DeleteAllTasks` and
the read operations never change it, and each `CreateTask` increments it by
exactly 1 as long as it is below the largest `int`: after any sequence of
operations on a store built by `New()` that contains n `CreateTask` calls,
`nextId = n` when `n < 2^63`, and the j-th `CreateTask` call (counting from 1)
returned `j-1` when `n ≤ 2^63`, whatever `DeleteTask` and `DeleteAllTasks`
calls are interleaved. -/
theorem C12_nextId_counts_creations (ops : List Op) :
    New.nextId = 0
    ∧ (∀ (ts : TaskStore) (text : String) (tags : List String) (due : Time),
        minInt ≤ ts.nextId → ts.nextId < maxInt →
          (CreateTask ts text tags due).1.nextId = ts.nextId + 1)
    ∧ (∀ (ts : TaskStore) (op : Op), numCreates [op] = 0 → (step ts op).nextId = ts.nextId)
    ∧ (numCreates ops < 2 ^ 63 → (exec New ops).nextId = numCreates ops)
    ∧ (numCreates ops ≤ 2 ^ 63 →
        (createdIds New ops).length = numCreates ops
        ∧ ∀ j : Nat, 1 ≤ j → j ≤ numCreates ops →
            (createdIds New ops)[j - 1]? = some ((j : Int) - 1)) := by
  refine ⟨rfl, ?_, step_nextId_of_not_create, ?_, ?_⟩
  · intro ts text tags due h1 h2
    rw [CreateTask_nextId]
    exact wrapInt_of_range (by omega) (by omega)
  · intro hn
    rw [exec_New_nextId]
    exact wrapInt_natCast hn
  · intro hn
    rw [createdIds_New_of_le ops hn]
    refine ⟨by simp, ?_⟩
    intro j h1 h2
    have hj : j - 1 < numCreates ops := by omega
    rw [List.getElem?_map, List.getElem?_range hj]
    simp only [Option.map_some', Option.some.injEq]
    omega

/-- Witness of C12: three creations interleaved with deletions and a read
leave `nextId = 3`, and the third creation returned 2. -/
theorem C12_nextId_counts_creations_witness :
    (exec New [Op.createTask "a" [] Time.zero, Op.deleteTask 0,
        Op.createTask "b" ["x"] Time.zero, Op.deleteAllTasks, Op.getAllTasks,
        Op.createTask "c" [] Time.zero]).nextId = 3
    ∧ (createdIds New [Op.createTask "a" [] Time.zero, Op.deleteTask 0,
        Op.createTask "b" ["x"] Time.zero, Op.deleteAllTasks, Op.getAllTasks,
        Op.createTask "c" [] Time.zero])[3 - 1]? = some ((3 : Int) - 1) :=
  ⟨(C12_nextId_counts_creations [Op.createTask "a" [] Time.zero, Op.deleteTask 0,
        Op.createTask "b" ["x"] Time.zero, Op.deleteAllTasks, Op.getAllTasks,
        Op.createTask "c" [] Time.zero]).2.2.2.1 (by simp [numCreates]),
   ((C12_nextId_counts_creations [Op.createTask "a" [] Time.zero, Op.deleteTask 0,
        Op.createTask "b" ["x"] Time.zero, Op.deleteAllTasks, Op.getAllTasks,
        Op.createTask "c" [] Time.zero]).2.2.2.2 (by simp [numCreates])).2 3 (by decide)
      (by simp [numCreates])⟩

/-- Counterexample to C12 as stated: after the sequence of `2^63` calls of
`CreateTask` on a store built by `New()`, `nextId` is `-2^63`, not `2^63`: the
last increment wrapped around. -/
theorem C12_counterexample_wrap_around :
    numCreates (List.replicate (2 ^ 63) (Op.createTask "" [] Time.zero)) = 2 ^ 63
    ∧ (exec New (List.replicate (2 ^ 63) (Op.createTask "" [] Time.zero))).nextId
        = -9223372036854775808
    ∧ (exec New (List.replicate (2 ^ 63) (Op.createTask "" [] Time.zero))).nextId
        ≠ ((numCreates (List.replicate (2 ^ 63) (Op.createTask "" [] Time.zero)) : Nat) : Int) := by
  have h1 := numCreates_replicate (2 ^ 63) "" [] Time.zero
  have h2 : (exec New (List.replicate (2 ^ 63) (Op.createTask "" [] Time.zero))).nextId
      = -9223372036854775808 := by
    rw [exec_New_nextId, h1]
    exact wrapInt_two_pow
  refine ⟨h1, h2, ?_⟩
  rw [h2, h1]
  decide

/-- C15. In every store reachable from `New()` by any sequence of operations,
every key of the tasks mapping equals the Id field of the task stored under
it. -/
theorem C15_key_equals_id (ts : TaskStore) (hr : Reachable ts) :
    (∀ (k : Int) (t : Task), ts.tasks.lookup k = some t → t.Id = k)
    ∧ (∀ e ∈ ts.tasks.entries, e.1 = e.2.Id) := by
  have h := hr.key_eq_id
  refine ⟨h, ?_⟩
  rintro ⟨k, t⟩ he
  exact (h k t ((lookup_iff_mem_entries _ _ _).mpr he)).symm

/-- Witness of C15: the store after three creations and a deletion. -/
theorem C15_key_equals_id_witness :
    Reachable (exec New [Op.createTask "a" [] Time.zero, Op.createTask "b" ["x"] Time.zero,
        Op.deleteTask 0, Op.createTask "c" [] Time.zero])
    ∧ ∀ e ∈ (exec New [Op.createTask "a" [] Time.zero, Op.createTask "b" ["x"] Time.zero,
        Op.deleteTask 0, Op.createTask "c" [] Time.zero]).tasks.entries, e.1 = e.2.Id :=
  ⟨⟨_, rfl⟩,
   (C15_key_equals_id
    (exec New [Op.createTask "a" [] Time.zero, Op.createTask "b" ["x"] Time.zero,
      Op.deleteTask 0, Op.createTask "c" [] Time.zero]) ⟨_, rfl⟩).2⟩

/-- C16 (amended). In every store reached from `New()` by a sequence with
fewer than `2^63` `CreateTask` calls (`nextId` has not wrapped around), every
stored task's id, as key and as Id field, satisfies `0 <= id < nextId`, and
`nextId` is strictly greater than every id any earlier `CreateTask` returned,
including ids of tasks since removed by `DeleteTask` or `DeleteAllTasks`. -/
theorem C16_ids_below_nextId (ops : List Op) (hn : numCreates ops < 2 ^ 63) :
    (∀ (k : Int) (t : Task), (exec New ops).tasks.lookup k = some t →
        0 ≤ k ∧ k < (exec New ops).nextId ∧ 0 ≤ t.Id ∧ t.Id < (exec New ops).nextId)
    ∧ (∀ j ∈ createdIds New ops, 0 ≤ j ∧ j < (exec New ops).nextId) := by
  have hnext : (exec New ops).nextId = numCreates ops := by
    rw [exec_New_nextId]
    exact wrapInt_natCast hn
  rw [hnext]
  constructor
  · intro k t hl
    have hm : k ∈ (exec New ops).tasks :=
      AList.lookup_isSome.mp (by rw [hl]; rfl)
    obtain ⟨i, hi, rfl⟩ := mem_tasks_exec_New (le_of_lt hn) hm
    have hid := @exec_key_eq_id New ops (by intro k t hk; simp [New] at hk) _ t hl
    rw [hid]
    exact ⟨Int.ofNat_nonneg i, Int.ofNat_lt.mpr hi, Int.ofNat_nonneg i, Int.ofNat_lt.mpr hi⟩
  · intro j hj
    rw [createdIds_New_of_le ops (le_of_lt hn), List.mem_map] at hj
    obtain ⟨i, hi, rfl⟩ := hj
    exact ⟨Int.ofNat_nonneg i, Int.ofNat_lt.mpr (List.mem_range.mp hi)⟩

/-- Witness of C16: after three creations, a `DeleteTask` and a
`DeleteAllTasks`, `nextId = 3` is above the returned ids 0, 1, 2. -/
theorem C16_ids_below_nextId_witness :
    numCreates [Op.createTask "a" [] Time.zero, Op.createTask "b" [] Time.zero,
        Op.deleteTask 0, Op.deleteAllTasks, Op.createTask "c" [] Time.zero] < 2 ^ 63
    ∧ ∀ j ∈ createdIds New [Op.createTask "a" [] Time.zero, Op.createTask "b" [] Time.zero,
        Op.deleteTask 0, Op.deleteAllTasks, Op.createTask "c" [] Time.zero],
        0 ≤ j ∧ j < (exec New [Op.createTask "a" [] Time.zero, Op.createTask "b" [] Time.zero,
          Op.deleteTask 0, Op.deleteAllTasks, Op.createTask "c" [] Time.zero]).nextId :=
  ⟨by simp [numCreates],
   (C16_ids_below_nextId [Op.createTask "a" [] Time.zero, Op.createTask "b" [] Time.zero,
        Op.deleteTask 0, Op.deleteAllTasks, Op.createTask "c" [] Time.zero]
      (by simp [numCreates])).2⟩

/-- Creations alone remove no key. -/
theorem mem_exec_replicate_create {ts : TaskStore} {k : Int} (hk : k ∈ ts.tasks) (n : Nat)
    (text : String) (tags : List String) (due : Time) :
    k ∈ (exec ts (List.replicate n (Op.createTask text tags due))).tasks := by
  induction n generalizing ts with
  | zero => exact hk
  | succ n ih =>
    rw [List.replicate_succ, exec_cons]
    apply ih
    simp only [step, CreateTask_tasks, AList.mem_insert]
    exact Or.inr hk

theorem zero_mem_exec_New_replicate (n : Nat) (hn : 0 < n) (text : String)
    (tags : List String) (due : Time) :
    (0 : Int) ∈ (exec New (List.replicate n (Op.createTask text tags due))).tasks := by
  obtain ⟨m, rfl⟩ : ∃ m, n = m + 1 := ⟨n - 1, by omega⟩
  rw [List.replicate_succ, exec_cons]
  apply mem_exec_replicate_create
  simp only [step, CreateTask_tasks, AList.mem_insert]
  exact Or.inl nextId_New.symm

/-- Counterexample to C16 as stated: after `2^63` calls of `CreateTask` on a
store built by `New()`, the task with id 0 is stored and 0 was returned, but
`nextId` is `-2^63`, which is not greater than 0. -/
theorem C16_counterexample_wrap_around :
    (0 : Int) ∈ (exec New (List.replicate (2 ^ 63) (Op.createTask "" [] Time.zero))).tasks
    ∧ (0 : Int) ∈ createdIds New (List.replicate (2 ^ 63) (Op.createTask "" [] Time.zero))
    ∧ ¬ (0 : Int) < (exec New (List.replicate (2 ^ 63) (Op.createTask "" [] Time.zero))).nextId := by
  refine ⟨zero_mem_exec_New_replicate _ (Nat.pow_pos (by decide)) _ _ _,
    zero_mem_createdIds_New_replicate _ (Nat.pow_pos (by decide)) _ _ _, ?_⟩
  rw [exec_New_nextId, numCreates_replicate, wrapInt_two_pow]
  decide

theorem minInt_neg : minInt < 0 := by decide

theorem nextId_not_mem_exec_New (ops : List Op) (hn : numCreates ops ≤ 2 ^ 63) :
    (exec New ops).nextId ∉ (exec New ops).tasks := by
  intro hm
  obtain ⟨i, hi, hk⟩ := mem_tasks_exec_New hn hm
  rw [exec_New_nextId] at hk
  rcases Nat.lt_or_ge (numCreates ops) (2 ^ 63) with hlt | hge
  · rw [wrapInt_natCast hlt] at hk
    have := Int.ofNat_inj.mp hk
    omega
  · have e : numCreates ops = 2 ^ 63 := le_antisymm hn hge
    rw [e, wrapInt_two_pow] at hk
    have h0 : (0 : Int) ≤ i := Int.ofNat_nonneg i
    have := minInt_neg
    omega

theorem keys_length_insert_of_not_mem (m : TaskMap) (k : Int) (t : Task) (h : k ∉ m) :
    (m.insert k t).keys.length = m.keys.length + 1 := by
  rw [AList.keys_insert, List.erase_of_not_mem (fun hk => h (AList.mem_keys.mpr hk))]
  rfl

theorem keys_length_insert_of_mem (m : TaskMap) (k : Int) (t : Task) (h : k ∈ m) :
    (m.insert k t).keys.length = m.keys.length := by
  have hk : k ∈ m.keys := AList.mem_keys.mp h
  rw [AList.keys_insert, List.length_cons, List.length_erase_of_mem hk]
  have : 0 < m.keys.length := List.length_pos_of_mem hk
  omega

theorem GetTask_CreateTask_of_ne (ts : TaskStore) (text : String) (tags : List String)
    (due : Time) (k : Int) (h : k ≠ ts.nextId) :
    GetTask (CreateTask ts text tags due).1 k = GetTask ts k := by
  simp only [GetTask, CreateTask_tasks, AList.lookup_insert_ne h]

/-- Creations alone leave a key alone that none of them returns. -/
theorem lookup_exec_replicate_create (ts : TaskStore) (k : Int) (n : Nat) (text : String)
    (tags : List String) (due : Time)
    (hk : k ∉ createdIds ts (List.replicate n (Op.createTask text tags due))) :
    (exec ts (List.replicate n (Op.createTask text tags due))).tasks.lookup k
      = ts.tasks.lookup k := by
  induction n generalizing ts with
  | zero => rfl
  | succ n ih =>
    rw [List.replicate_succ, createdIds_cons] at hk
    simp only [List.singleton_append, List.mem_cons, not_or] at hk
    rw [List.replicate_succ, exec_cons, ih _ hk.2]
    simp only [step, CreateTask_tasks]
    exact AList.lookup_insert_ne hk.1

theorem wrapInt_ne_zero {x : Int} (h0 : 0 < x) (h1 : x < 2 ^ 64) : wrapInt x ≠ 0 := by
  unfold wrapInt intBits
  norm_num at h1 ⊢
  omega

theorem wrapInt_range (x : Int) : minInt ≤ wrapInt x ∧ wrapInt x ≤ maxInt := by
  unfold wrapInt minInt maxInt intBits
  norm_num
  omega

theorem wrapInt_natCast_ne {i n : Nat} (hi : i < n) (hn : n < 2 ^ 64) :
    wrapInt (i : Int) ≠ wrapInt (n : Int) := by
  unfold wrapInt intBits
  norm_num at hn ⊢
  omega

/-- The keys of a store reached from `New()` are ids handed out before,
wrap-around included. -/
theorem mem_tasks_exec_New_wrap {ops : List Op} {k : Int} (hk : k ∈ (exec New ops).tasks) :
    ∃ i : Nat, i < numCreates ops ∧ k = wrapInt i := by
  rcases mem_exec hk with h0 | h0
  · exact absurd h0 (AList.not_mem_empty k)
  · rw [createdIds_New, List.mem_map] at h0
    obtain ⟨i, hi, rfl⟩ := h0
    exact ⟨i, List.mem_range.mp hi, rfl⟩

/-- Until `2^64` tasks have been created, the id the next creation uses is
not stored. -/
theorem nextId_fresh_exec_New (ops : List Op) (hn : numCreates ops < 2 ^ 64) :
    (exec New ops).nextId ∉ (exec New ops).tasks := by
  intro hm
  obtain ⟨i, hi, hk⟩ := mem_tasks_exec_New_wrap hm
  rw [exec_New_nextId] at hk
  exact wrapInt_natCast_ne hi hn hk.symm

/-- `nextId++` adds one exactly when `nextId` is not the largest `int`. -/
theorem CreateTask_nextId_succ_iff (ts : TaskStore) (text : String) (tags : List String)
    (due : Time) (h1 : minInt ≤ ts.nextId) (h2 : ts.nextId ≤ maxInt) :
    (CreateTask ts text tags due).1.nextId = ts.nextId + 1 ↔ ts.nextId ≠ maxInt := by
  rw [CreateTask_nextId]
  constructor
  · intro h hmax
    rw [hmax, wrapInt_maxInt_succ] at h
    exact absurd h (by decide)
  · intro hne
    exact wrapInt_of_range (by omega) (by omega)

/-- C17 (amended). For every store reached from `New()` by a sequence with
fewer than `2^64` `CreateTask` calls, `CreateTask` never overwrites an existing
task: the id it uses is not a key of the store before the call, so the number
of stored tasks grows by exactly one and every previously stored task is still
returned unchanged by `GetTask` under its old id.  For every store reachable
from `New()`, `nextId` grows by exactly one if and only if it is not the
largest `int`, which it is not while fewer than `2^63 - 1` tasks have been
created. -/
theorem C17_create_never_overwrites (ops : List Op) (text : String) (tags : List String)
    (due : Time) :
    (numCreates ops < 2 ^ 64 →
        (CreateTask (exec New ops) text tags due).2 ∉ (exec New ops).tasks
        ∧ (CreateTask (exec New ops) text tags due).1.tasks.keys.length
            = (exec New ops).tasks.keys.length + 1
        ∧ (CreateTask (exec New ops) text tags due).1.tasks.entries.length
            = (exec New ops).tasks.entries.length + 1
        ∧ (∀ (k : Int) (t : Task), (exec New ops).tasks.lookup k = some t →
            GetTask (CreateTask (exec New ops) text tags due).1 k = (t, none)))
    ∧ ((CreateTask (exec New ops) text tags due).1.nextId = (exec New ops).nextId + 1
        ↔ (exec New ops).nextId ≠ maxInt)
    ∧ (numCreates ops < 2 ^ 63 - 1 →
        (CreateTask (exec New ops) text tags due).1.nextId = (exec New ops).nextId + 1) := by
  have hrange : minInt ≤ (exec New ops).nextId ∧ (exec New ops).nextId ≤ maxInt := by
    rw [exec_New_nextId]
    exact wrapInt_range _
  have hiff := CreateTask_nextId_succ_iff (exec New ops) text tags due hrange.1 hrange.2
  refine ⟨?_, hiff, ?_⟩
  · intro hn
    have hfresh := nextId_fresh_exec_New ops hn
    have hlen := keys_length_insert_of_not_mem (exec New ops).tasks (exec New ops).nextId
      { Id := (exec New ops).nextId, Text := text, Tags := tags, Due := due } hfresh
    rw [CreateTask_id, CreateTask_tasks]
    refine ⟨hfresh, hlen, ?_, ?_⟩
    · simpa [AList.keys, List.keys] using hlen
    · intro k t hl
      have hne : k ≠ (exec New ops).nextId := by
        rintro rfl
        exact hfresh (AList.lookup_isSome.mp (by rw [hl]; rfl))
      rw [GetTask_CreateTask_of_ne _ _ _ _ _ hne]
      exact GetTask_of_lookup hl
  · intro hn
    apply hiff.mpr
    rw [exec_New_nextId, wrapInt_natCast (by omega)]
    unfold maxInt intBits
    intro h
    norm_num at h
    have := Int.ofNat_inj.mp (h.trans (by norm_num : (9223372036854775807 : Int) = ((9223372036854775807 : Nat) : Int)))
    omega

/-- Witness of C17: a creation on the store left by two creations and a
deletion uses the id 2, which is not stored, and `nextId` grows by one. -/
theorem C17_create_never_overwrites_witness :
    (CreateTask
        (exec New [Op.createTask "a" [] Time.zero, Op.createTask "b" [] Time.zero,
          Op.deleteTask 0]) "c" ["x"] Time.zero).2 = 2
    ∧ (CreateTask
        (exec New [Op.createTask "a" [] Time.zero, Op.createTask "b" [] Time.zero,
          Op.deleteTask 0]) "c" ["x"] Time.zero).2
        ∉ (exec New [Op.createTask "a" [] Time.zero, Op.createTask "b" [] Time.zero,
          Op.deleteTask 0]).tasks
    ∧ (CreateTask
        (exec New [Op.createTask "a" [] Time.zero, Op.createTask "b" [] Time.zero,
          Op.deleteTask 0]) "c" ["x"] Time.zero).1.nextId
        = (exec New [Op.createTask "a" [] Time.zero, Op.createTask "b" [] Time.zero,
          Op.deleteTask 0]).nextId + 1 :=
  ⟨by decide,
   ((C17_create_never_overwrites
      [Op.createTask "a" [] Time.zero, Op.createTask "b" [] Time.zero, Op.deleteTask 0]
      "c" ["x"] Time.zero).1 (by simp [numCreates])).1,
   (C17_create_never_overwrites
      [Op.createTask "a" [] Time.zero, Op.createTask "b" [] Time.zero, Op.deleteTask 0]
      "c" ["x"] Time.zero).2.2 (by simp [numCreates])⟩

/-- Counterexample to C17 as stated, one input for each part that fails.  On
the store reached from `New()` by creating the task "first" (id 0) and then
`2^64 - 1` further tasks, `nextId` is 0 again and task 0 is still stored;
`CreateTask` then returns 0, the number of stored tasks does not grow, and
`GetTask(0)`, which returned the task "first" before the call, returns the new
task "again".  On the store reached by `2^63 - 1` creations, `nextId` is the
largest `int`, and after `CreateTask` it is `-2^63`, not one more. -/
theorem C17_counterexample_overwrite :
    (exec New (Op.createTask "first" [] Time.zero
        :: List.replicate (2 ^ 64 - 1) (Op.createTask "" [] Time.zero))).nextId = 0
    ∧ GetTask (exec New (Op.createTask "first" [] Time.zero
        :: List.replicate (2 ^ 64 - 1) (Op.createTask "" [] Time.zero))) 0
        = ({ Id := 0, Text := "first", Tags := [], Due := Time.zero }, none)
    ∧ (CreateTask (exec New (Op.createTask "first" [] Time.zero
        :: List.replicate (2 ^ 64 - 1) (Op.createTask "" [] Time.zero)))
        "again" [] Time.zero).2 = 0
    ∧ GetTask (CreateTask (exec New (Op.createTask "first" [] Time.zero
        :: List.replicate (2 ^ 64 - 1) (Op.createTask "" [] Time.zero)))
        "again" [] Time.zero).1 0
        = ({ Id := 0, Text := "again", Tags := [], Due := Time.zero }, none)
    ∧ (CreateTask (exec New (Op.createTask "first" [] Time.zero
        :: List.replicate (2 ^ 64 - 1) (Op.createTask "" [] Time.zero)))
        "again" [] Time.zero).1.tasks.keys.length
        = (exec New (Op.createTask "first" [] Time.zero
        :: List.replicate (2 ^ 64 - 1) (Op.createTask "" [] Time.zero))).tasks.keys.length
    ∧ (exec New (List.replicate (2 ^ 63 - 1) (Op.createTask "" [] Time.zero))).nextId
        = 9223372036854775807
    ∧ (CreateTask (exec New (List.replicate (2 ^ 63 - 1) (Op.createTask "" [] Time.zero)))
        "" [] Time.zero).1.nextId = -9223372036854775808
    ∧ (CreateTask (exec New (List.replicate (2 ^ 63 - 1) (Op.createTask "" [] Time.zero)))
        "" [] Time.zero).1.nextId
        ≠ (exec New (List.replicate (2 ^ 63 - 1) (Op.createTask "" [] Time.zero))).nextId + 1 := by
  have hmax : (exec New (List.replicate (2 ^ 63 - 1) (Op.createTask "" [] Time.zero))).nextId
      = 9223372036854775807 := by
    rw [exec_New_nextId, numCreates_replicate]
    decide
  have hmin : (CreateTask (exec New (List.replicate (2 ^ 63 - 1) (Op.createTask "" [] Time.zero)))
      "" [] Time.zero).1.nextId = -9223372036854775808 := by
    rw [CreateTask_nextId, hmax]
    decide
  have hw1 : wrapInt (step New (Op.createTask "first" [] Time.zero)).nextId
      = (step New (Op.createTask "first" [] Time.zero)).nextId := by decide
  have hnext : (exec New (Op.createTask "first" [] Time.zero
        :: List.replicate (2 ^ 64 - 1) (Op.createTask "" [] Time.zero))).nextId = 0 := by
    rw [exec_cons, exec_nextId_wrap _ _ hw1, numCreates_replicate]
    decide
  have hnot : (0 : Int) ∉ createdIds (step New (Op.createTask "first" [] Time.zero))
      (List.replicate (2 ^ 64 - 1) (Op.createTask "" [] Time.zero)) := by
    rw [createdIds_wrap _ _ hw1, numCreates_replicate, List.mem_map]
    rintro ⟨i, hi, h0⟩
    have hi' := List.mem_range.mp hi
    have e : (step New (Op.createTask "first" [] Time.zero)).nextId = 1 := by decide
    rw [e] at h0
    have hlt : (1 : Int) + (i : Int) < 2 ^ 64 := by
      have : (i : Int) < ((2 ^ 64 - 1 : Nat) : Int) := Int.ofNat_lt.mpr hi'
      norm_num at this ⊢
      omega
    exact wrapInt_ne_zero (by omega) hlt h0
  have hlook : (exec New (Op.createTask "first" [] Time.zero
        :: List.replicate (2 ^ 64 - 1) (Op.createTask "" [] Time.zero))).tasks.lookup 0
        = some { Id := 0, Text := "first", Tags := [], Due := Time.zero } := by
    rw [exec_cons, lookup_exec_replicate_create _ _ _ _ _ _ hnot]
    decide
  have hmem : (0 : Int) ∈ (exec New (Op.createTask "first" [] Time.zero
        :: List.replicate (2 ^ 64 - 1) (Op.createTask "" [] Time.zero))).tasks :=
    AList.lookup_isSome.mp (by rw [hlook]; rfl)
  refine ⟨hnext, GetTask_of_lookup hlook, ?_, ?_, ?_, hmax, hmin, ?_⟩
  · rw [CreateTask_id, hnext]
  · apply GetTask_of_lookup
    rw [CreateTask_tasks, hnext, AList.lookup_insert]
  · rw [CreateTask_tasks, hnext]
    exact keys_length_insert_of_mem _ _ _ hmem
  · rw [hmin, hmax]
    decide

/-- C18. For every store and every id k present in it, `DeleteTask(k)` returns
no error and removes exactly that task: afterwards k is absent (and `GetTask(k)`
fails), every task with id `j != k` is still stored unchanged, the number of
stored tasks has dropped by exactly one, and `nextId` is unchanged. -/
theorem C18_delete_removes_exactly_one (ts : TaskStore) (k : Int) (hk : k ∈ ts.tasks) :
    (DeleteTask ts k).2 = none
    ∧ k ∉ (DeleteTask ts k).1.tasks
    ∧ GetTask (DeleteTask ts k).1 k = (Task.zero, some (notFound k))
    ∧ (∀ j : Int, j ≠ k → (DeleteTask ts k).1.tasks.lookup j = ts.tasks.lookup j)
    ∧ (∀ j : Int, j ≠ k → GetTask (DeleteTask ts k).1 j = GetTask ts j)
    ∧ (DeleteTask ts k).1.tasks.keys.length + 1 = ts.tasks.keys.length
    ∧ (DeleteTask ts k).1.tasks.entries.length + 1 = ts.tasks.entries.length
    ∧ (DeleteTask ts k).1.nextId = ts.nextId := by
  have hlook : ∀ j : Int, j ≠ k → (DeleteTask ts k).1.tasks.lookup j = ts.tasks.lookup j := by
    intro j hj
    rw [DeleteTask_of_mem hk]
    exact AList.lookup_erase_ne hj
  have hlen : (DeleteTask ts k).1.tasks.keys.length + 1 = ts.tasks.keys.length := by
    have hk' : k ∈ ts.tasks.keys := AList.mem_keys.mp hk
    have hpos : 0 < ts.tasks.keys.length := List.length_pos_of_mem hk'
    rw [DeleteTask_of_mem hk]
    simp only [AList.keys_erase, List.length_erase_of_mem hk']
    omega
  refine ⟨by rw [DeleteTask_of_mem hk], not_mem_DeleteTask ts k,
    GetTask_of_not_mem (not_mem_DeleteTask ts k), hlook, ?_, hlen, ?_, DeleteTask_nextId ts k⟩
  · intro j hj
    simp only [GetTask, hlook j hj]
  · simpa [AList.keys, List.keys] using hlen

/-- Witness of C18: deleting task 1 from the store holding tasks 0, 1, 2. -/
theorem C18_delete_removes_exactly_one_witness :
    (1 : Int) ∈ (exec New [Op.createTask "a" [] Time.zero, Op.createTask "b" ["x"] Time.zero,
        Op.createTask "c" [] Time.zero]).tasks
    ∧ (DeleteTask (exec New [Op.createTask "a" [] Time.zero,
        Op.createTask "b" ["x"] Time.zero, Op.createTask "c" [] Time.zero]) 1).2 = none
    ∧ (1 : Int) ∉ (DeleteTask (exec New [Op.createTask "a" [] Time.zero,
        Op.createTask "b" ["x"] Time.zero, Op.createTask "c" [] Time.zero]) 1).1.tasks :=
  ⟨by decide,
   (C18_delete_removes_exactly_one
      (exec New [Op.createTask "a" [] Time.zero, Op.createTask "b" ["x"] Time.zero,
        Op.createTask "c" [] Time.zero]) 1 (by decide)).1,
   (C18_delete_removes_exactly_one
      (exec New [Op.createTask "a" [] Time.zero, Op.createTask "b" ["x"] Time.zero,
        Op.createTask "c" [] Time.zero]) 1 (by decide)).2.1⟩

theorem step_of_isRead (ts : TaskStore) (op : Op) (h : isRead op = true) : step ts op = ts := by
  cases op <;> simp_all [isRead, step]

theorem exec_filter_not_isRead (ts : TaskStore) (ops : List Op) :
    exec ts (ops.filter (fun op => !isRead op)) = exec ts ops := by
  induction ops generalizing ts with
  | nil => rfl
  | cons op ops ih =>
    by_cases h : isRead op = true
    · rw [List.filter_cons_of_neg (by simp [h]), exec_cons, step_of_isRead ts op h, ih]
    · rw [List.filter_cons_of_pos (by simpa using h), exec_cons, exec_cons, ih]

theorem createdIds_filter_not_isRead (ts : TaskStore) (ops : List Op) :
    createdIds ts (ops.filter (fun op => !isRead op)) = createdIds ts ops := by
  induction ops generalizing ts with
  | nil => rfl
  | cons op ops ih =>
    by_cases h : isRead op = true
    · rw [List.filter_cons_of_neg (by simp [h]), createdIds_cons, step_of_isRead ts op h, ih]
      cases op <;> simp_all [isRead]
    · rw [List.filter_cons_of_pos (by simpa using h), createdIds_cons, createdIds_cons, ih]

/-! ### Methods on the receiver -/

theorem Sync_CreateTask_returns (ts : TaskStore) (text : String) (tags : List String)
    (due : Time) :
    Sync.CreateTask ⟨false, ts⟩ text tags due
      = some (⟨false, (CreateTask ts text tags due).1⟩, (CreateTask ts text tags due).2) := rfl

theorem Sync_DeleteTask_returns (ts : TaskStore) (id : Int) :
    Sync.DeleteTask ⟨false, ts⟩ id
      = some (⟨false, (DeleteTask ts id).1⟩, (DeleteTask ts id).2) := by
  have hl : Sync.Lock ⟨false, ts⟩ = some ⟨true, ts⟩ := rfl
  unfold Sync.DeleteTask DeleteTask
  rw [hl]
  dsimp only
  cases ts.tasks.lookup id <;> rfl

theorem Sync_DeleteAllTasks_returns (ts : TaskStore) :
    Sync.DeleteAllTasks ⟨false, ts⟩
      = some (⟨false, (DeleteAllTasks ts).1⟩, (DeleteAllTasks ts).2) := rfl

theorem Sync_GetTask_returns (ts : TaskStore) (id : Int) :
    Sync.GetTask ⟨false, ts⟩ id = some (⟨false, ts⟩, GetTask ts id) := by
  have hl : Sync.Lock ⟨false, ts⟩ = some ⟨true, ts⟩ := rfl
  unfold Sync.GetTask GetTask
  rw [hl]
  dsimp only
  cases ts.tasks.lookup id <;> rfl

theorem Sync_GetAllTasks_returns (ts : TaskStore) (order : List (Sigma fun _ : Int => Task)) :
    Sync.GetAllTasks ⟨false, ts⟩ order = some (⟨false, ts⟩, GetAllTasks ts order) := rfl

theorem Sync_GetTaskByTag_returns (ts : TaskStore) (order : List (Sigma fun _ : Int => Task))
    (tag : String) :
    Sync.GetTaskByTag ⟨false, ts⟩ order tag = some (⟨false, ts⟩, GetTaskByTag ts order tag) :=
  rfl

theorem Sync_GetTaskByDueDate_returns (ts : TaskStore)
    (order : List (Sigma fun _ : Int => Task)) (year month day : Int) :
    Sync.GetTaskByDueDate ⟨false, ts⟩ order year month day
      = some (⟨false, ts⟩, GetTaskByDueDate ts order year month day) := rfl

/-- A call on a receiver whose mutex is free returns, leaves the mutex free,
and leaves the store `step` gives. -/
theorem Sync_call_eq_step (ts : TaskStore) (order : List (Sigma fun _ : Int => Task))
    (op : Op) : Sync.call ⟨false, ts⟩ order op = some ⟨false, step ts op⟩ := by
  cases op with
  | createTask text tags due => rfl
  | getTask id => simp only [Sync.call, Sync_GetTask_returns]; rfl
  | deleteTask id => simp only [Sync.call, Sync_DeleteTask_returns]; rfl
  | deleteAllTasks => rfl
  | getAllTasks => rfl
  | getTaskByTag tag => rfl
  | getTaskByDueDate year month day => rfl

/-- A call on a receiver whose mutex is held does not return. -/
theorem Sync_call_locked (ts : TaskStore) (order : List (Sigma fun _ : Int => Task))
    (op : Op) : Sync.call ⟨true, ts⟩ order op = none := by
  cases op <;> rfl

/-- C19. The read operations `GetTask`, `GetAllTasks`, `GetTaskByTag` and
`GetTaskByDueDate` have no side effects: called on a receiver whose mutex is
free, each of them returns, with the result of the method, and leaves the
receiver as it was, the tasks mapping and `nextId` after the call being those
before it (and the mutex free again), for every store and every argument,
whether `GetTask` succeeds or fails.  Hence the store after a read call in a
sequence is the store before it, and leaving the read calls out of any
sequence of calls changes neither the store reached nor the ids the
`CreateTask` calls return. -/
theorem C19_reads_have_no_side_effects (ts : TaskStore) :
    (∀ id : Int, Sync.GetTask ⟨false, ts⟩ id = some (⟨false, ts⟩, GetTask ts id))
    ∧ (∀ order : List (Sigma fun _ : Int => Task),
        Sync.GetAllTasks ⟨false, ts⟩ order = some (⟨false, ts⟩, GetAllTasks ts order))
    ∧ (∀ (order : List (Sigma fun _ : Int => Task)) (tag : String),
        Sync.GetTaskByTag ⟨false, ts⟩ order tag = some (⟨false, ts⟩, GetTaskByTag ts order tag))
    ∧ (∀ (order : List (Sigma fun _ : Int => Task)) (year month day : Int),
        Sync.GetTaskByDueDate ⟨false, ts⟩ order year month day
          = some (⟨false, ts⟩, GetTaskByDueDate ts order year month day))
    ∧ (∀ (id : Int) (t : Task), ts.tasks.lookup id = some t →
        ∃ r' : Sync.Receiver, Sync.GetTask ⟨false, ts⟩ id = some (r', (t, none))
          ∧ r'.store.tasks = ts.tasks ∧ r'.store.nextId = ts.nextId)
    ∧ (∀ id : Int, id ∉ ts.tasks →
        ∃ r' : Sync.Receiver,
          Sync.GetTask ⟨false, ts⟩ id = some (r', (Task.zero, some (notFound id)))
          ∧ r'.store.tasks = ts.tasks ∧ r'.store.nextId = ts.nextId)
    ∧ (∀ (op : Op) (order : List (Sigma fun _ : Int => Task)), isRead op = true →
        Sync.call ⟨false, ts⟩ order op = some ⟨false, ts⟩
        ∧ (step ts op).tasks = ts.tasks ∧ (step ts op).nextId = ts.nextId)
    ∧ (∀ ops : List Op, exec ts (ops.filter (fun op => !isRead op)) = exec ts ops)
    ∧ (∀ ops : List Op,
        createdIds ts (ops.filter (fun op => !isRead op)) = createdIds ts ops) := by
  refine ⟨Sync_GetTask_returns ts, Sync_GetAllTasks_returns ts, Sync_GetTaskByTag_returns ts,
    Sync_GetTaskByDueDate_returns ts, ?_, ?_, ?_, exec_filter_not_isRead ts,
    createdIds_filter_not_isRead ts⟩
  · intro id t hl
    refine ⟨⟨false, ts⟩, ?_, rfl, rfl⟩
    rw [Sync_GetTask_returns, GetTask_of_lookup hl]
  · intro id hid
    refine ⟨⟨false, ts⟩, ?_, rfl, rfl⟩
    rw [Sync_GetTask_returns, GetTask_of_not_mem hid]
  · intro op order h
    rw [Sync_call_eq_step, step_of_isRead ts op h]
    exact ⟨rfl, rfl, rfl⟩

/-- Witness of C19: on the store holding tasks 0 and 1, `GetTask(1)` succeeds,
`GetTask(7)` fails and `GetTaskByTag("x")` scans the map; after each the
receiver is as before. -/
theorem C19_reads_have_no_side_effects_witness :
    Sync.GetTask
        ⟨false, exec New [Op.createTask "a" [] Time.zero, Op.createTask "b" ["x"] Time.zero]⟩ 1
      = some (⟨false, exec New [Op.createTask "a" [] Time.zero,
          Op.createTask "b" ["x"] Time.zero]⟩,
          ({ Id := 1, Text := "b", Tags := ["x"], Due := Time.zero }, none))
    ∧ Sync.GetTask
        ⟨false, exec New [Op.createTask "a" [] Time.zero, Op.createTask "b" ["x"] Time.zero]⟩ 7
      = some (⟨false, exec New [Op.createTask "a" [] Time.zero,
          Op.createTask "b" ["x"] Time.zero]⟩,
          (Task.zero, some "task with id=7 not found"))
    ∧ Sync.GetTaskByTag
        ⟨false, exec New [Op.createTask "a" [] Time.zero, Op.createTask "b" ["x"] Time.zero]⟩
        (exec New [Op.createTask "a" [] Time.zero,
          Op.createTask "b" ["x"] Time.zero]).tasks.entries "x"
      = some (⟨false, exec New [Op.createTask "a" [] Time.zero,
          Op.createTask "b" ["x"] Time.zero]⟩,
          [{ Id := 1, Text := "b", Tags := ["x"], Due := Time.zero }]) :=
  ⟨((C19_reads_have_no_side_effects
      (exec New [Op.createTask "a" [] Time.zero, Op.createTask "b" ["x"] Time.zero])).1 1).trans
      rfl,
   ((C19_reads_have_no_side_effects
      (exec New [Op.createTask "a" [] Time.zero, Op.createTask "b" ["x"] Time.zero])).1 7).trans
      rfl,
   ((C19_reads_have_no_side_effects
      (exec New [Op.createTask "a" [] Time.zero,
        Op.createTask "b" ["x"] Time.zero])).2.2.1 _ "x").trans rfl⟩

/-- C20. `DeleteAllTasks` always succeeds and is idempotent: for every store
it returns a nil error, applying it twice leaves the same state (tasks and
`nextId`) as applying it once, and on a store that already has no tasks it
changes nothing. -/
theorem C20_DeleteAllTasks_idempotent (ts : TaskStore) :
    (DeleteAllTasks ts).2 = none
    ∧ (DeleteAllTasks (DeleteAllTasks ts).1).2 = none
    ∧ (DeleteAllTasks (DeleteAllTasks ts).1).1 = (DeleteAllTasks ts).1
    ∧ (DeleteAllTasks (DeleteAllTasks ts).1).1.tasks = (DeleteAllTasks ts).1.tasks
    ∧ (DeleteAllTasks (DeleteAllTasks ts).1).1.nextId = (DeleteAllTasks ts).1.nextId
    ∧ (ts.tasks.entries = [] → (DeleteAllTasks ts).1 = ts) := by
  refine ⟨rfl, rfl, rfl, rfl, rfl, ?_⟩
  intro h
  have e : ts.tasks = ∅ := AList.ext (by rw [h]; rfl)
  cases ts with
  | mk tasks nextId =>
    simp only at e
    subst e
    rfl

/-! ### Slices as references -/

theorem Mem.array_append_left (h l : Mem.Heap) {a : Nat} (ha : a < h.length) :
    Mem.Heap.array (h ++ l) a = Mem.Heap.array h a := by
  simp [Mem.Heap.array, List.getElem?_append_left ha]

theorem Mem.array_set_self (h : Mem.Heap) {a : Nat} (ha : a < h.length) (x : List String) :
    Mem.Heap.array (h.set a x) a = x := by
  simp [Mem.Heap.array, ha]

theorem Mem.array_set_ne (h : Mem.Heap) {a b : Nat} (hab : a ≠ b) (x : List String) :
    Mem.Heap.array (h.set a x) b = Mem.Heap.array h b := by
  simp [Mem.Heap.array, List.getElem?_set_ne hab]

theorem Mem.length_read_le (h : Mem.Heap) (s : Mem.Slice) : (s.read h).length ≤ s.len := by
  simp [Mem.Slice.read]

/-- The heap `CreateTask` leaves: one new backing array, holding the elements
of the tags passed in. -/
theorem Mem.CreateTask_heap (h : Mem.Heap) (ts : Mem.TaskStore) (text : String)
    (tags : Mem.Slice) (due : Time) (hv : tags.arr < h.length) :
    (Mem.CreateTask h ts text tags due).1
      = (h ++ [List.replicate tags.len ""]).set h.length (tags.read h) := by
  have hr : tags.read (h ++ [List.replicate tags.len ""]) = tags.read h := by
    simp only [Mem.Slice.read, Mem.array_append_left h _ hv]
  have ha : Mem.Heap.array (h ++ [List.replicate tags.len ""]) h.length
      = List.replicate tags.len "" := by
    simp [Mem.Heap.array]
  simp only [Mem.CreateTask, Mem.make, Mem.copy, hr, ha, min_self, List.take_zero,
    List.nil_append, Nat.zero_add]
  congr 1
  rw [List.take_of_length_le (Mem.length_read_le h tags),
    List.drop_of_length_le (by simp), List.append_nil]

/-- The record `CreateTask` stores: its Tags are the slice of the new backing
array. -/
theorem Mem.CreateTask_lookup (h : Mem.Heap) (ts : Mem.TaskStore) (text : String)
    (tags : Mem.Slice) (due : Time) :
    (Mem.CreateTask h ts text tags due).2.1.tasks.lookup (Mem.CreateTask h ts text tags due).2.2
      = some { Id := ts.nextId, Text := text,
               Tags := { arr := h.length, off := 0, len := tags.len }, Due := due } := by
  simp [Mem.CreateTask, Mem.make, AList.lookup_insert]

/-- `CreateTask` copies the tags it is given: the stored task holds the
elements of the argument in a backing array of its own, and no assignment
through the argument afterwards changes them. -/
theorem Mem.CreateTask_copies_argument (h : Mem.Heap) (ts : Mem.TaskStore) (text : String)
    (tags : Mem.Slice) (due : Time) (hv : tags.arr < h.length) :
    (Mem.GetTask (Mem.CreateTask h ts text tags due).2.1
        (Mem.CreateTask h ts text tags due).2.2).1.Tags.arr ≠ tags.arr
    ∧ Mem.Task.value (Mem.CreateTask h ts text tags due).1
        (Mem.GetTask (Mem.CreateTask h ts text tags due).2.1
          (Mem.CreateTask h ts text tags due).2.2).1
        = { Id := ts.nextId, Text := text, Tags := tags.read h, Due := due }
    ∧ ∀ (i : Nat) (v : String) (h' : Mem.Heap),
        tags.assign (Mem.CreateTask h ts text tags due).1 i v = some h' →
        Mem.Task.value h'
          (Mem.GetTask (Mem.CreateTask h ts text tags due).2.1
            (Mem.CreateTask h ts text tags due).2.2).1
          = { Id := ts.nextId, Text := text, Tags := tags.read h, Due := due } := by
  have hg : (Mem.GetTask (Mem.CreateTask h ts text tags due).2.1
        (Mem.CreateTask h ts text tags due).2.2).1
      = { Id := ts.nextId, Text := text,
          Tags := { arr := h.length, off := 0, len := tags.len }, Due := due } := by
    simp only [Mem.GetTask, Mem.CreateTask_lookup]
  have hlen : h.length < (h ++ [List.replicate tags.len ""]).length := by simp
  have hread : ∀ h' : Mem.Heap, Mem.Heap.array h' h.length = tags.read h →
      Mem.Slice.read h' { arr := h.length, off := 0, len := tags.len } = tags.read h := by
    intro h' e
    simp only [Mem.Slice.read, e, List.drop_zero]
    exact List.take_of_length_le (Mem.length_read_le h tags)
  rw [hg, Mem.CreateTask_heap h ts text tags due hv]
  refine ⟨fun e => absurd e (Nat.ne_of_gt hv), ?_, ?_⟩
  · simp only [Mem.Task.value, hread _ (Mem.array_set_self _ hlen _)]
  · intro i v h' hassign
    simp only [Mem.Slice.assign] at hassign
    split at hassign
    · cases hassign
      simp only [Mem.Task.value]
      rw [hread]
      rw [Mem.array_set_ne _ (Nat.ne_of_lt hv), Mem.array_set_self _ hlen]
    · cases hassign

/-- C13, the failing input.  The caller owns the slice `["home", "urgent"]`
and creates a task with it; the store then holds those tags in a backing array
of its own, and an assignment through the caller's slice leaves them alone.
But the Task `GetTask(0)` returns, and likewise the Task in the sequence
`GetAllTasks()` returns, carries the stored slice value itself: after the
caller assigns `Tags[0] = "hacked"` on such a Task, the store holds the tags
`["hacked", "urgent"]`. -/
theorem C13_returned_tags_alias_store :
    (Mem.CreateTask [["home", "urgent"]] Mem.New "buy milk" ⟨0, 0, 2⟩ Time.zero).2.2 = 0
    ∧ (Mem.GetTask (Mem.CreateTask [["home", "urgent"]] Mem.New "buy milk" ⟨0, 0, 2⟩
          Time.zero).2.1 0).1.Tags.read
        (Mem.CreateTask [["home", "urgent"]] Mem.New "buy milk" ⟨0, 0, 2⟩ Time.zero).1
        = ["home", "urgent"]
    ∧ ((Mem.Slice.assign
          (Mem.CreateTask [["home", "urgent"]] Mem.New "buy milk" ⟨0, 0, 2⟩ Time.zero).1
          ⟨0, 0, 2⟩ 0 "changed").map
        (fun h => (Mem.GetTask (Mem.CreateTask [["home", "urgent"]] Mem.New "buy milk"
          ⟨0, 0, 2⟩ Time.zero).2.1 0).1.Tags.read h)) = some ["home", "urgent"]
    ∧ ((Mem.Slice.assign
          (Mem.CreateTask [["home", "urgent"]] Mem.New "buy milk" ⟨0, 0, 2⟩ Time.zero).1
          (Mem.GetTask (Mem.CreateTask [["home", "urgent"]] Mem.New "buy milk" ⟨0, 0, 2⟩
            Time.zero).2.1 0).1.Tags 0 "hacked").map
        (fun h => (Mem.GetTask (Mem.CreateTask [["home", "urgent"]] Mem.New "buy milk"
          ⟨0, 0, 2⟩ Time.zero).2.1 0).1.Tags.read h)) = some ["hacked", "urgent"]
    ∧ ((Mem.GetAllTasks
          (Mem.CreateTask [["home", "urgent"]] Mem.New "buy milk" ⟨0, 0, 2⟩ Time.zero).2.1
          (Mem.CreateTask [["home", "urgent"]] Mem.New "buy milk" ⟨0, 0, 2⟩
            Time.zero).2.1.tasks.entries).map (fun t => t.Tags))
        = [(Mem.GetTask (Mem.CreateTask [["home", "urgent"]] Mem.New "buy milk" ⟨0, 0, 2⟩
            Time.zero).2.1 0).1.Tags] := by
  decide

end taskstore
